import Mathlib

/-!
# Solana Actions Go examples: a shallow embedding

Two example services are embedded:

* `examples/gin` (package `app`): `PostHandler`, `OptionsHandler` and the
  builder `mintNFT`;
* `examples/go-gin` (package `main`): `handlePostRequest`, `corsMiddleware`
  and the builder `prepareTransaction`.

The web framework, the JSON decoder, `strconv` and the chain SDK are external
collaborators.  Their entry points are fields of a dependency record
(`MintDeps`, `TransferDeps`); the theorems quantify over every such record.
Instruction constructors of the SDK are embedded symbolically: an
`Instruction` is the constructor that was called together with the parameter
record it was given.
-/

namespace SolanaActions

/-! ## float64 -/

/-- A float64 value.  `finite neg m e` stands for `(-1)^neg * m * 2^e`; a
float64 proper has `m < 2^53` and `-1074 ≤ e ≤ 971`, and one number can be
written with several pairs `m`, `e`.  The operations below take any pair. -/
inductive F64 where
  | finite (neg : Bool) (m : Nat) (e : Int)
  | inf (neg : Bool)
  | nan
  deriving DecidableEq, Repr

namespace F64

/-- Number of binary digits of `m`, by repeated halving (`fuel` bounds the
number of halvings). -/
def bitLengthAux : Nat → Nat → Nat
  | 0, _ => 0
  | fuel + 1, m => if m = 0 then 0 else bitLengthAux fuel (m / 2) + 1

/-- Number of binary digits of `m`. -/
def bitLength (m : Nat) : Nat := bitLengthAux m m

/-- The mantissa of `m * 2^e` at the exponent `q`: exact when `q ≤ e`, else
the low `q - e` bits are dropped, rounding to nearest, ties to even. -/
def roundMantissa (m : Nat) (e q : Int) : Nat :=
  if q ≤ e then m * 2 ^ (e - q).toNat
  else
    let sh := (q - e).toNat
    let quo := m / 2 ^ sh
    let rem := m % 2 ^ sh
    let half := 2 ^ (sh - 1)
    if half < rem ∨ (rem = half ∧ quo % 2 = 1) then quo + 1 else quo

/-- Round the exact value `(-1)^neg * m * 2^e` to the nearest float64, ties to
even: 53 significant bits, least exponent `-1074`, overflow to infinity. -/
def round (neg : Bool) (m : Nat) (e : Int) : F64 :=
  if m = 0 then finite neg 0 0
  else
    let q : Int := max (e + (bitLength m : Int) - 53) (-1074)
    let m1 : Nat := roundMantissa m e q
    if 971 < q ∨ (q = 971 ∧ m1 = 2 ^ 53) then inf neg else finite neg m1 q

/-- The float64 product `a * b`. -/
def mul : F64 → F64 → F64
  | nan, _ => nan
  | _, nan => nan
  | inf s, inf t => inf (xor s t)
  | inf s, finite t m _ => if m = 0 then nan else inf (xor s t)
  | finite s m _, inf t => if m = 0 then nan else inf (xor s t)
  | finite s m e, finite t n f => round (xor s t) (m * n) (e + f)

/-- The value of a finite float64 as a rational number (`0` for the others). -/
def toRat : F64 → ℚ
  | finite neg m e => (if neg then -1 else 1) * (m : ℚ) * (2 : ℚ) ^ e
  | _ => 0

/-- The comparison `0 < x` on float64 (false for NaN). -/
def pos : F64 → Bool
  | finite neg m _ => !neg && decide (0 < m)
  | inf neg => !neg
  | nan => false

/-- Whether a float64 is a finite number. -/
def isFinite : F64 → Bool
  | finite _ _ _ => true
  | _ => false

/-- The integer part of the magnitude of a finite value: the fraction is
discarded. -/
def truncMagnitude (m : Nat) (e : Int) : Nat :=
  if 0 ≤ e then m * 2 ^ e.toNat else m / 2 ^ (-e).toNat

/-- The Go conversion `uint64(x)` of a float64.  The fraction is discarded
(truncation towards zero).  When the truncated value is not a uint64 the
result is implementation-dependent: it is whatever `impl` gives, reduced to 64
bits. -/
def toUint64 (impl : F64 → Nat) : F64 → Nat
  | finite neg m e =>
    let t := truncMagnitude m e
    if t = 0 then 0
    else if !neg ∧ t < 2 ^ 64 then t
    else impl (finite neg m e) % 2 ^ 64
  | x => impl x % 2 ^ 64

/-- The constant `1e9` as a float64. -/
def e9 : F64 := finite false 1000000000 0

end F64

/-- The spec's `round`: the nearest integer (a half rounds up).  This is the
reading of the specification, not a translation of code. -/
def roundNearest (x : ℚ) : ℤ := round x

/-! ## HTTP and JSON -/

/-- A JSON value as `c.JSON` writes it (strings and objects are all the
handlers below produce). -/
inductive Json where
  | str (s : String)
  | obj (fields : List (String × Json))

namespace Json

/-- The top-level field names of a JSON object, in order. -/
def keys : Json → List String
  | obj fields => fields.map Prod.fst
  | str _ => []

/-- The value of the top-level field `k`. -/
def field? (k : String) : Json → Option Json
  | obj fields => (fields.find? (fun kv => kv.1 == k)).map Prod.snd
  | str _ => none

end Json

/-- The response a handler writes: status code, the headers set by the handler
code, and the JSON body if one was written. -/
structure Response where
  status : Nat
  headers : List (String × String)
  body : Option Json

/-- The request side of a `gin.Context`: method, URL query parameters in the
order they appear, and the raw body. -/
structure Context where
  method : String
  query : List (String × String)
  body : String

/-- The call `c.Query(key)`: the first value of `key`, or `""` when there is none. -/
def Context.Query (c : Context) (key : String) : String :=
  match c.query.find? (fun kv => kv.1 == key) with
  | some kv => kv.2
  | none => ""

/-- The call `c.JSON(status, obj)` on a fresh response. -/
def cJSON (status : Nat) (obj : Json) : Response :=
  { status := status, headers := [], body := some obj }

/-- The call `Header().Set(key, value)`: replaces the values of `key`. -/
def setHeader (key value : String) (hs : List (String × String)) : List (String × String) :=
  hs.filter (fun kv => kv.1 != key) ++ [(key, value)]

/-- The call `c.Header(key, value)`: an empty value deletes the header. -/
def cHeader (key value : String) (hs : List (String × String)) : List (String × String) :=
  if value = "" then hs.filter (fun kv => kv.1 != key) else setHeader key value hs

/-- The value of response header `key`. -/
def header? (key : String) (hs : List (String × String)) : Option String :=
  (hs.find? (fun kv => kv.1 == key)).map Prod.snd

/-! ## The chain SDK, symbolically -/

/-- The type `common.PublicKey`. -/
structure PublicKey where
  raw : String
  deriving DecidableEq, Repr

/-- The type `types.Account`: a key pair. -/
structure Account where
  PublicKey : PublicKey
  PrivateKey : String
  deriving DecidableEq, Repr

/-- The type `system.CreateAccountParam`. -/
structure CreateAccountParam where
  From : PublicKey
  New : PublicKey
  Owner : PublicKey
  Lamports : Nat
  Space : Nat
  deriving DecidableEq, Repr

/-- The type `token.InitializeMintParam`. -/
structure InitializeMintParam where
  Decimals : Nat
  Mint : PublicKey
  MintAuth : PublicKey
  FreezeAuth : Option PublicKey
  deriving DecidableEq, Repr

/-- The type `token_metadata.Creator`. -/
structure Creator where
  Address : PublicKey
  Verified : Bool
  Share : Nat
  deriving DecidableEq, Repr

/-- The type `token_metadata.Collection`. -/
structure Collection where
  Verified : Bool
  Key : PublicKey
  deriving DecidableEq, Repr

/-- The type `token_metadata.DataV2` (`Uses` is only ever `nil` here). -/
structure DataV2 where
  Name : String
  Symbol : String
  Uri : String
  SellerFeeBasisPoints : Nat
  Creators : Option (List Creator)
  Collection : Option Collection
  Uses : Option Unit
  deriving DecidableEq, Repr

/-- The type `token_metadata.CreateMetadataAccountV3Param`
(`CollectionDetails` is only ever `nil` here). -/
structure CreateMetadataAccountV3Param where
  Metadata : PublicKey
  Mint : PublicKey
  MintAuthority : PublicKey
  Payer : PublicKey
  UpdateAuthority : PublicKey
  UpdateAuthorityIsSigner : Bool
  IsMutable : Bool
  Data : DataV2
  CollectionDetails : Option Unit
  deriving DecidableEq, Repr

/-- The type `associated_token_account.CreateParam`. -/
structure CreateParam where
  Funder : PublicKey
  Owner : PublicKey
  Mint : PublicKey
  AssociatedTokenAccount : PublicKey
  deriving DecidableEq, Repr

/-- The type `token.MintToParam` (the `Signers` field is left at its zero value). -/
structure MintToParam where
  Mint : PublicKey
  To : PublicKey
  Auth : PublicKey
  Amount : Nat
  deriving DecidableEq, Repr

/-- The type `token_metadata.CreateMasterEditionParam`. -/
structure CreateMasterEditionParam where
  Edition : PublicKey
  Mint : PublicKey
  UpdateAuthority : PublicKey
  MintAuthority : PublicKey
  Metadata : PublicKey
  Payer : PublicKey
  MaxSupply : Option Nat
  deriving DecidableEq, Repr

/-- The type `system.TransferParam`. -/
structure TransferParam where
  From : PublicKey
  To : PublicKey
  Amount : Nat
  deriving DecidableEq, Repr

/-- An instruction record: the SDK constructor that made it and its argument. -/
inductive Instruction where
  | CreateAccount (p : CreateAccountParam)
  | InitializeMint (p : InitializeMintParam)
  | CreateMetadataAccountV3 (p : CreateMetadataAccountV3Param)
  | CreateAssociatedTokenAccount (p : CreateParam)
  | MintTo (p : MintToParam)
  | CreateMasterEditionV3 (p : CreateMasterEditionParam)
  | Transfer (p : TransferParam)
  deriving DecidableEq, Repr

/-- Which SDK constructor made an instruction. -/
inductive InstructionKind where
  | createAccount
  | initializeMint
  | createMetadataAccount
  | createAssociatedTokenAccount
  | mintTo
  | createMasterEdition
  | transfer
  deriving DecidableEq, Repr

/-- The constructor behind an instruction record. -/
def Instruction.kind : Instruction → InstructionKind
  | CreateAccount _ => .createAccount
  | InitializeMint _ => .initializeMint
  | CreateMetadataAccountV3 _ => .createMetadataAccount
  | CreateAssociatedTokenAccount _ => .createAssociatedTokenAccount
  | MintTo _ => .mintTo
  | CreateMasterEditionV3 _ => .createMasterEdition
  | Transfer _ => .transfer

/-- The type `types.NewMessageParam`; `types.NewMessage` is kept symbolic, so
this record is also the message. -/
structure NewMessageParam where
  FeePayer : PublicKey
  RecentBlockhash : String
  Instructions : List Instruction
  deriving DecidableEq, Repr

/-- The type `types.NewTransactionParam`. -/
structure NewTransactionParam where
  Signers : List Account
  Message : NewMessageParam
  deriving DecidableEq, Repr

/-- The type `types.Transaction`: one signature slot per required signer, and
the message. -/
structure Transaction where
  Signatures : List (List Nat)
  Message : NewMessageParam
  deriving DecidableEq, Repr

/-! ## examples/gin, package `app` -/

namespace App

/-- The type `ActionPostRequest` of `schema.go`. -/
structure ActionPostRequest where
  Account : String
  deriving DecidableEq, Repr

/-- The type `ActionPostResponseFields` of `schema.go`. -/
structure ActionPostResponseFields where
  Transaction : String
  Message : String
  deriving DecidableEq, Repr

/-- The type `ActionPostResponse` of `schema.go`. -/
structure ActionPostResponse where
  Fields : ActionPostResponseFields
  deriving DecidableEq, Repr

/-- The type `ActionError` of `schema.go`. -/
structure ActionError where
  Message : String
  deriving DecidableEq, Repr

/-- The type `MintNFTParams` of `schema.go`. -/
structure MintNFTParams where
  Name : String
  Symbol : String
  URI : String
  deriving DecidableEq, Repr

/-- The map `ACTIONS_CORS_HEADERS` of `schema.go`, as its list of entries. -/
def ACTIONS_CORS_HEADERS : List (String × String) :=
  [("Access-Control-Allow-Origin", "*"),
   ("Access-Control-Allow-Methods", "GET,POST,OPTIONS"),
   ("Access-Control-Allow-Headers", "Content-Type")]

/-- JSON encoding of `ActionError`, by its `json` tags. -/
def ActionError.toJSON (e : ActionError) : Json :=
  .obj [("message", .str e.Message)]

/-- JSON encoding of `ActionPostResponseFields`, by its `json` tags. -/
def ActionPostResponseFields.toJSON (f : ActionPostResponseFields) : Json :=
  .obj [("transaction", .str f.Transaction), ("message", .str f.Message)]

/-- JSON encoding of `ActionPostResponse`, by its `json` tags. -/
def ActionPostResponse.toJSON (r : ActionPostResponse) : Json :=
  .obj [("fields", r.Fields.toJSON)]

/-- The call `c.ShouldBindQuery(&qPayload)` for `MintNFTParams`: each field takes
the first value of the query key named by its `form` tag (the zero value `""`
when the key is absent), and `binding:"required"` rejects a field left at its
zero value. -/
def ShouldBindQuery (c : Context) : Except String MintNFTParams :=
  let p : MintNFTParams :=
    { Name := c.Query "name", Symbol := c.Query "symbol", URI := c.Query "uri" }
  if p.Name = "" then .error "Field validation for Name failed on the required tag"
  else if p.Symbol = "" then .error "Field validation for Symbol failed on the required tag"
  else if p.URI = "" then .error "Field validation for URI failed on the required tag"
  else .ok p

/-- The external calls of `handlers.go` and `mint_nft.go`. -/
structure MintDeps where
  /-- The call `c.ShouldBindJSON(&request)` on the request body. -/
  ShouldBindJSON : String → Except String ActionPostRequest
  /-- The call `types.AccountFromBase58`. -/
  AccountFromBase58 : String → Except String Account
  /-- The key pair made by the `n`-th call of `types.NewAccount()` in a request. -/
  NewAccount : Nat → Account
  /-- The call `common.FindAssociatedTokenAddress` (the nonce is dropped). -/
  FindAssociatedTokenAddress : PublicKey → PublicKey → Except String PublicKey
  /-- The call `token_metadata.GetTokenMetaPubkey`. -/
  GetTokenMetaPubkey : PublicKey → Except String PublicKey
  /-- The call `token_metadata.GetMasterEdition`. -/
  GetMasterEdition : PublicKey → Except String PublicKey
  /-- The RPC call `c.GetMinimumBalanceForRentExemption`. -/
  GetMinimumBalanceForRentExemption : Nat → Except String Nat
  /-- The RPC call `c.GetLatestBlockhash`: the `Blockhash` of the answer. -/
  GetLatestBlockhash : Except String String
  /-- The call `types.NewTransaction`. -/
  NewTransaction : NewTransactionParam → Except String Transaction
  /-- The call `tx.Serialize()`. -/
  Serialize : Transaction → Except String (List Nat)
  /-- The call `base64.StdEncoding.EncodeToString`. -/
  EncodeToString : List Nat → String
  /-- The constant `common.TokenProgramID`. -/
  TokenProgramID : PublicKey
  /-- The constant `token.MintAccountSize`. -/
  MintAccountSize : Nat

/-- What a completed `mintNFT` hands back: its two results, and with them the
argument it gave to `types.NewTransaction`. -/
structure MintNFTResult where
  txParam : NewTransactionParam
  transaction : String
  message : String
  deriving DecidableEq, Repr

/-- The argument of `types.NewTransaction` in `mintNFT` (lines 59-130). -/
def mintNFTTxParam (d : MintDeps) (metadata : MintNFTParams) (feePayer mint collection : Account)
    (ata tokenMetadataPubkey tokenMasterEditionPubkey : PublicKey) (mintAccountRent : Nat)
    (blockhash : String) : NewTransactionParam :=
  { Signers := [mint, feePayer]
    Message :=
      { FeePayer := feePayer.PublicKey
        RecentBlockhash := blockhash
        Instructions :=
          [ .CreateAccount
              { From := feePayer.PublicKey
                New := mint.PublicKey
                Owner := d.TokenProgramID
                Lamports := mintAccountRent
                Space := d.MintAccountSize },
            .InitializeMint
              { Decimals := 0
                Mint := mint.PublicKey
                MintAuth := feePayer.PublicKey
                FreezeAuth := some feePayer.PublicKey },
            .CreateMetadataAccountV3
              { Metadata := tokenMetadataPubkey
                Mint := mint.PublicKey
                MintAuthority := feePayer.PublicKey
                Payer := feePayer.PublicKey
                UpdateAuthority := feePayer.PublicKey
                UpdateAuthorityIsSigner := true
                IsMutable := true
                Data :=
                  { Name := metadata.Name
                    Symbol := metadata.Symbol
                    Uri := metadata.URI
                    SellerFeeBasisPoints := 100
                    Creators := some [{ Address := feePayer.PublicKey, Verified := true, Share := 100 }]
                    Collection := some { Verified := false, Key := collection.PublicKey }
                    Uses := none }
                CollectionDetails := none },
            .CreateAssociatedTokenAccount
              { Funder := feePayer.PublicKey
                Owner := feePayer.PublicKey
                Mint := mint.PublicKey
                AssociatedTokenAccount := ata },
            .MintTo
              { Mint := mint.PublicKey
                To := ata
                Auth := feePayer.PublicKey
                Amount := 1 },
            .CreateMasterEditionV3
              { Edition := tokenMasterEditionPubkey
                Mint := mint.PublicKey
                UpdateAuthority := feePayer.PublicKey
                MintAuthority := feePayer.PublicKey
                Metadata := tokenMetadataPubkey
                Payer := feePayer.PublicKey
                MaxSupply := some 0 } ] } }

/-- The function `mintNFT` of `mint_nft.go`.  `.error line` is a `log.Fatalf`
(or `log.Fatal`) with that log line: the process ends there. -/
def mintNFT (d : MintDeps) (metadata : MintNFTParams) (feePayer : Account) :
    Except String MintNFTResult :=
  let message := "Mint NFT " ++ metadata.Name
  let mint := d.NewAccount 0
  let collection := d.NewAccount 1
  match d.FindAssociatedTokenAddress feePayer.PublicKey mint.PublicKey with
  | .error err => .error ("failed to find a valid ata, err: " ++ err)
  | .ok ata =>
  match d.GetTokenMetaPubkey mint.PublicKey with
  | .error err => .error ("failed to find a valid token metadata, err: " ++ err)
  | .ok tokenMetadataPubkey =>
  match d.GetMasterEdition mint.PublicKey with
  | .error err => .error ("failed to find a valid master edition, err: " ++ err)
  | .ok tokenMasterEditionPubkey =>
  match d.GetMinimumBalanceForRentExemption d.MintAccountSize with
  | .error err => .error ("failed to get mint account rent, err: " ++ err)
  | .ok mintAccountRent =>
  match d.GetLatestBlockhash with
  | .error err => .error ("failed to get recent blockhash, err: " ++ err)
  | .ok blockhash =>
  let param := mintNFTTxParam d metadata feePayer mint collection ata tokenMetadataPubkey
    tokenMasterEditionPubkey mintAccountRent blockhash
  match d.NewTransaction param with
  | .error err => .error ("failed to new a tx, err: " ++ err)
  | .ok tx =>
  match d.Serialize tx with
  | .error err => .error err
  | .ok serialized =>
    .ok { txParam := param, transaction := d.EncodeToString serialized, message := message }

/-- The function `OptionsHandler` of `handlers.go`.  `order` is the order in
which the `range` loop visits the entries of `ACTIONS_CORS_HEADERS`. -/
def OptionsHandler (order : List (String × String)) (_c : Context) : Response :=
  { status := 200
    headers := order.foldl (fun hs kv => cHeader kv.1 kv.2 hs) []
    body := none }

/-- One run of `PostHandler`: the response written (`none` when the process
ended before one was written), the arguments of the call of `mintNFT` when it
was made, and the log line of the `log.Fatalf` that ended the process. -/
structure PostRun where
  response : Option Response
  mintNFTCall : Option (MintNFTParams × Account)
  fatal : Option String

/-- The function `PostHandler` of `handlers.go`. -/
def PostHandler (d : MintDeps) (c : Context) : PostRun :=
  match ShouldBindQuery c with
  | .error _ =>
    { response := some (cJSON 400 (ActionError.toJSON { Message := "Invalid Query Params" }))
      mintNFTCall := none, fatal := none }
  | .ok qPayload =>
  match d.ShouldBindJSON c.body with
  | .error _ =>
    { response := some (cJSON 400 (ActionError.toJSON { Message := "Invalid request" }))
      mintNFTCall := none, fatal := none }
  | .ok request =>
  match d.AccountFromBase58 request.Account with
  | .error _ =>
    { response := some (cJSON 400
        (ActionError.toJSON { Message := "Invalid request; Error validating account" }))
      mintNFTCall := none, fatal := none }
  | .ok account =>
  match mintNFT d qPayload account with
  | .error line =>
    { response := none, mintNFTCall := some (qPayload, account), fatal := some line }
  | .ok r =>
    let response : ActionPostResponse :=
      { Fields := { Transaction := r.transaction, Message := r.message } }
    { response := some (cJSON 200 response.toJSON)
      mintNFTCall := some (qPayload, account), fatal := none }

end App

/-! ## examples/go-gin, package `main` -/

namespace Main

/-- The type `PostRequest` of `main.go`. -/
structure PostRequest where
  Account : String
  deriving DecidableEq, Repr

/-- The type `PostResponse` of `main.go`. -/
structure PostResponse where
  Transaction : String
  Message : String
  deriving DecidableEq, Repr

/-- JSON encoding of `PostResponse`, by its `json` tags. -/
def PostResponse.toJSON (r : PostResponse) : Json :=
  .obj [("transaction", .str r.Transaction), ("message", .str r.Message)]

/-- The external calls of `main.go`. -/
structure TransferDeps where
  /-- The call `c.ShouldBindJSON(&payload)` on the request body. -/
  ShouldBindJSON : String → Except String PostRequest
  /-- The call `strconv.ParseFloat(s, 64)`. -/
  ParseFloat : String → Except String F64
  /-- The call `common.PublicKeyFromString`. -/
  PublicKeyFromString : String → PublicKey
  /-- The key pair made by `types.NewAccount()`. -/
  NewAccount : Account
  /-- The RPC call `client.GetLatestBlockhash`: the `Blockhash` of the answer. -/
  GetLatestBlockhash : Except String String
  /-- The call `types.NewTransaction`. -/
  NewTransaction : NewTransactionParam → Except String Transaction
  /-- The call `tx.Serialize()`. -/
  Serialize : Transaction → Except String (List Nat)
  /-- The call `base64.StdEncoding.EncodeToString`. -/
  EncodeToString : List Nat → String
  /-- What the platform gives for `uint64(x)` when `x` is out of range. -/
  uint64OutOfRange : F64 → Nat

/-- What a successful `prepareTransaction` hands back: its string result, and
with it the argument it gave to `types.NewTransaction`. -/
structure Prepared where
  txParam : NewTransactionParam
  encodedTx : String
  deriving DecidableEq, Repr

/-- The local `lamports := uint64(amountInFloat * 1e9)` of `prepareTransaction`. -/
def lamports (d : TransferDeps) (amountInFloat : F64) : Nat :=
  F64.toUint64 d.uint64OutOfRange (F64.mul amountInFloat F64.e9)

/-- The argument of `types.NewTransaction` in `prepareTransaction` (lines 127-140). -/
def transferTxParam (senderPubKey receiverPubKey : PublicKey) (lamports : Nat)
    (recentBlockhash : String) : NewTransactionParam :=
  { Signers := []
    Message :=
      { FeePayer := senderPubKey
        RecentBlockhash := recentBlockhash
        Instructions :=
          [ .Transfer { From := senderPubKey, To := receiverPubKey, Amount := lamports } ] } }

/-- The function `prepareTransaction` of `main.go`. -/
def prepareTransaction (d : TransferDeps) (senderPubKey receiverPubKey : PublicKey)
    (amountInFloat : F64) : Except String Prepared :=
  let lamports := lamports d amountInFloat
  match d.GetLatestBlockhash with
  | .error err => .error ("failed to get recent blockhash: " ++ err)
  | .ok recentBlockhash =>
  let param := transferTxParam senderPubKey receiverPubKey lamports recentBlockhash
  match d.NewTransaction param with
  | .error err => .error ("failed to create transaction: " ++ err)
  | .ok tx =>
  match d.Serialize tx with
  | .error err => .error ("failed to serialize transaction: " ++ err)
  | .ok serializedTx =>
    .ok { txParam := param, encodedTx := d.EncodeToString serializedTx }

/-- One run of `handlePostRequest`: the response written, and the arguments of
the call of `prepareTransaction` when it was made. -/
structure TransferRun where
  response : Response
  prepareCall : Option (PublicKey × PublicKey × F64)

/-- The function `handlePostRequest` of `main.go`. -/
def handlePostRequest (d : TransferDeps) (c : Context) : TransferRun :=
  match d.ShouldBindJSON c.body with
  | .error _ =>
    { response := cJSON 400 (.obj [("error", .str "Error decoding payload")])
      prepareCall := none }
  | .ok payload =>
  let queryAmount := c.Query "amount"
  match d.ParseFloat queryAmount with
  | .error _ =>
    { response := cJSON 400 (.obj [("error", .str "Invalid amount")])
      prepareCall := none }
  | .ok amountInFloat =>
  let senderPubKey := d.PublicKeyFromString payload.Account
  let receiverPubKey := d.NewAccount.PublicKey
  match prepareTransaction d senderPubKey receiverPubKey amountInFloat with
  | .error _ =>
    { response := cJSON 500 (.obj [("error", .str "Error preparing transaction")])
      prepareCall := some (senderPubKey, receiverPubKey, amountInFloat) }
  | .ok p =>
    let response : PostResponse :=
      { Transaction := p.encodedTx, Message := "Transaction sent successfully" }
    { response := cJSON 200 response.toJSON
      prepareCall := some (senderPubKey, receiverPubKey, amountInFloat) }

/-- The function `corsMiddleware` of `main.go`.  `next` is the rest of the
handler chain (`c.Next()`), which goes on writing into the same response. -/
def corsMiddleware (next : Context → Response) (c : Context) : Response :=
  let hs := setHeader "Access-Control-Allow-Origin" "*" []
  let hs := setHeader "Access-Control-Allow-Methods" "GET, POST, OPTIONS" hs
  let hs := setHeader "Access-Control-Allow-Headers"
    "Content-Type, Authorization, Content-Encoding, Accept-Encoding" hs
  if c.method = "OPTIONS" then
    { status := 200, headers := hs, body := none }
  else
    let r := next c
    { r with headers := hs ++ r.headers }

end Main

/-! ## Concrete collaborators for the evaluated examples -/

namespace Sample

/-- A request body whose `account` member is a public key in base58. -/
def bodyWithAccount : String :=
  "\x7b\"account\":\"7EcDhSYGxXyscszYEp35KHN8vvw3svAuLKTzXwCFLtV\"\x7d"

/-- A placeholder for the base58 text of a 64-byte key pair, the form of
`account` that `types.AccountFromBase58` reads. -/
def keyPairText : String := "base58-text-of-a-key-pair"

/-- A request body whose `account` member is `keyPairText`. -/
def bodyWithKeyPair : String :=
  "\x7b\"account\":\"base58-text-of-a-key-pair\"\x7d"

/-- The request body `{}`: a JSON object without an `account` member. -/
def bodyEmptyObject : String := "\x7b\x7d"

/-- The account string of `bodyWithAccount`. -/
def accountString : String := "7EcDhSYGxXyscszYEp35KHN8vvw3svAuLKTzXwCFLtV"

/-- A stand-in for signing, serialisation and base64: it keeps the number of
signers, so that results stay readable. -/
def newTransaction (p : NewTransactionParam) : Except String Transaction :=
  .ok { Signatures := p.Signers.map (fun _ => [0]), Message := p.Message }

/-- A stand-in for `tx.Serialize()`. -/
def serialize (tx : Transaction) : Except String (List Nat) :=
  .ok [tx.Signatures.length, tx.Message.Instructions.length]

/-- A stand-in for `base64.StdEncoding.EncodeToString`. -/
def encodeToString (bs : List Nat) : String :=
  String.mk (bs.map (fun b => Char.ofNat (65 + b % 26)))

/-- Collaborators of `examples/gin` that all succeed.  The JSON decoder
answers as `encoding/json` does on the two sample bodies: a missing member
leaves `Account` at its zero value.  `AccountFromBase58` accepts `keyPairText`
and rejects the empty string. -/
def mintDeps : App.MintDeps :=
  { ShouldBindJSON := fun body =>
      if body = bodyWithKeyPair then .ok { Account := keyPairText }
      else if body = bodyEmptyObject then .ok { Account := "" }
      else .error "invalid character"
    AccountFromBase58 := fun key =>
      if key = keyPairText then .ok { PublicKey := ⟨"payer"⟩, PrivateKey := keyPairText }
      else if key = "" then .error "zero length string"
      else .error "key length mismatch"
    NewAccount := fun n => { PublicKey := ⟨"fresh" ++ toString n⟩, PrivateKey := "secret" }
    FindAssociatedTokenAddress := fun owner mint => .ok ⟨"ata:" ++ owner.raw ++ ":" ++ mint.raw⟩
    GetTokenMetaPubkey := fun mint => .ok ⟨"metadata:" ++ mint.raw⟩
    GetMasterEdition := fun mint => .ok ⟨"edition:" ++ mint.raw⟩
    GetMinimumBalanceForRentExemption := fun _ => .ok 1461600
    GetLatestBlockhash := .ok "blockhash"
    NewTransaction := newTransaction
    Serialize := serialize
    EncodeToString := encodeToString
    TokenProgramID := ⟨"TokenkegQfeZyiNwAJbNbGKPFXCWuBvf9Ss623VQ5DA"⟩
    MintAccountSize := 82 }

/-- The collaborators `mintDeps`, with the rent RPC call failing. -/
def mintDepsRentFails : App.MintDeps :=
  { mintDeps with GetMinimumBalanceForRentExemption := fun _ => .error "rpc: connection refused" }

/-- A mint request with all three query parameters and an account. -/
def mintContext : Context :=
  { method := "POST"
    query := [("name", "Art"), ("symbol", "ART"), ("uri", "https://example.com/art.json")]
    body := bodyWithKeyPair }

/-- A mint request with all three query parameters and the body `{}`. -/
def mintContextNoAccount : Context :=
  { mintContext with body := bodyEmptyObject }

/-- A mint request without the `symbol` query parameter. -/
def mintContextNoSymbol : Context :=
  { mintContext with query := [("name", "Art"), ("uri", "https://example.com/art.json")] }

/-- The query of `mintContext`, bound. -/
def mintParams : App.MintNFTParams :=
  { Name := "Art", Symbol := "ART", URI := "https://example.com/art.json" }

/-- The fee payer of `mintContext`. -/
def feePayer : Account :=
  { PublicKey := ⟨"payer"⟩, PrivateKey := keyPairText }

/-- Collaborators of `examples/go-gin` that all succeed.  `ParseFloat` answers
as `strconv.ParseFloat` does on the literals listed; out-of-range conversions
give `2^63`. -/
def transferDeps : Main.TransferDeps :=
  { ShouldBindJSON := fun body =>
      if body = bodyWithAccount then .ok { Account := accountString }
      else if body = bodyEmptyObject then .ok { Account := "" }
      else .error "invalid character"
    ParseFloat := fun s =>
      if s = "2" then .ok (F64.finite false 1 1)
      else if s = "0" then .ok (F64.finite false 0 0)
      else if s = "-1" then .ok (F64.finite true 1 0)
      else if s = "NaN" then .ok F64.nan
      else if s = "0x1p-30" then .ok (F64.finite false 1 (-30))
      else .error "invalid syntax"
    PublicKeyFromString := fun s => ⟨s⟩
    NewAccount := { PublicKey := ⟨"fresh"⟩, PrivateKey := "secret" }
    GetLatestBlockhash := .ok "blockhash"
    NewTransaction := newTransaction
    Serialize := serialize
    EncodeToString := encodeToString
    uint64OutOfRange := fun _ => 2 ^ 63 }

/-- The collaborators `transferDeps`, with the blockhash RPC call failing. -/
def transferDepsRpcFails : Main.TransferDeps :=
  { transferDeps with GetLatestBlockhash := .error "rpc: connection refused" }

/-- A transfer request with the given `amount` query parameter. -/
def transferContext (amount : String) : Context :=
  { method := "POST", query := [("amount", amount)], body := bodyWithAccount }

/-- A transfer request whose body is `{}`. -/
def transferContextNoAccount : Context :=
  { method := "POST", query := [("amount", "2")], body := bodyEmptyObject }

/-- A transfer request whose body is not JSON. -/
def transferContextBadBody : Context :=
  { method := "POST", query := [("amount", "2")], body := "" }

/-- An `OPTIONS` request with some body. -/
def optionsContext : Context :=
  { method := "OPTIONS", query := [], body := "anything" }

/-- The sender key of the sample transfer requests. -/
def sender : PublicKey := ⟨accountString⟩

/-- The fresh receiver key of the sample transfer requests. -/
def receiver : PublicKey := ⟨"fresh"⟩

/-- What `prepareTransaction` returns under `transferDeps` for the float64 `2`. -/
def preparedTwo : Main.Prepared :=
  { txParam := Main.transferTxParam sender receiver 2000000000 "blockhash"
    encodedTx := "AB" }

/-- What `prepareTransaction` returns under `transferDeps` for the float64 `2^-30`. -/
def preparedTiny : Main.Prepared :=
  { txParam := Main.transferTxParam sender receiver 0 "blockhash"
    encodedTx := "AB" }

/-- What `mintNFT` returns under `mintDeps` for `mintParams` and `feePayer`. -/
def minted : App.MintNFTResult :=
  { txParam :=
      App.mintNFTTxParam mintDeps mintParams feePayer
        { PublicKey := ⟨"fresh0"⟩, PrivateKey := "secret" }
        { PublicKey := ⟨"fresh1"⟩, PrivateKey := "secret" }
        ⟨"ata:payer:fresh0"⟩
        ⟨"metadata:fresh0"⟩ ⟨"edition:fresh0"⟩ 1461600 "blockhash"
    transaction := "CG"
    message := "Mint NFT Art" }

end Sample

/-! ## The conversion `uint64(x)` discards the fraction -/

namespace F64

theorem truncMagnitude_eq_floor (m : Nat) (e : Int) :
    truncMagnitude m e = ⌊(m : ℚ) * (2 : ℚ) ^ e⌋₊ := by
  unfold truncMagnitude
  split
  · rename_i he
    obtain ⟨k, rfl⟩ := Int.eq_ofNat_of_zero_le he
    rw [Int.toNat_natCast, zpow_natCast]
    have : (m : ℚ) * 2 ^ k = ((m * 2 ^ k : ℕ) : ℚ) := by push_cast; rfl
    rw [this, Nat.floor_natCast]
  · rename_i he
    have hneg : 0 ≤ -e := by omega
    obtain ⟨k, hk⟩ := Int.eq_ofNat_of_zero_le hneg
    have he2 : e = -(k : ℤ) := by omega
    rw [hk, Int.toNat_natCast, he2, zpow_neg, zpow_natCast]
    have : (m : ℚ) * ((2 : ℚ) ^ k)⁻¹ = (m : ℚ) / ((2 ^ k : ℕ) : ℚ) := by
      push_cast
      rw [div_eq_mul_inv]
    rw [this, Nat.floor_div_eq_div]

theorem toUint64_eq_floor (impl : F64 → Nat) (neg : Bool) (m : Nat) (e : Int)
    (h0 : 0 ≤ toRat (finite neg m e)) (h64 : toRat (finite neg m e) < 2 ^ 64) :
    toUint64 impl (finite neg m e) = ⌊toRat (finite neg m e)⌋₊ := by
  have hpow : (0 : ℚ) < (2 : ℚ) ^ e := zpow_pos (by norm_num) e
  cases neg with
  | false =>
    have hval : toRat (finite false m e) = (m : ℚ) * (2 : ℚ) ^ e := by
      simp [toRat]
    rw [hval] at h64 ⊢
    unfold toUint64
    simp only
    rw [truncMagnitude_eq_floor]
    split
    · rename_i ht
      rw [ht]
    · have hlt : ⌊(m : ℚ) * (2 : ℚ) ^ e⌋₊ < 2 ^ 64 := by
        have hle : ((⌊(m : ℚ) * (2 : ℚ) ^ e⌋₊ : ℕ) : ℚ) ≤ (m : ℚ) * (2 : ℚ) ^ e :=
          Nat.floor_le (by positivity)
        have : ((⌊(m : ℚ) * (2 : ℚ) ^ e⌋₊ : ℕ) : ℚ) < ((2 ^ 64 : ℕ) : ℚ) := by
          push_cast
          exact lt_of_le_of_lt hle h64
        exact_mod_cast this
      rw [if_pos ⟨rfl, hlt⟩]
  | true =>
    have hval : toRat (finite true m e) = -((m : ℚ) * (2 : ℚ) ^ e) := by
      simp [toRat]
    rw [hval] at h0
    have hm : m = 0 := by
      by_contra hne
      have hmpos : (0 : ℚ) < (m : ℚ) := by exact_mod_cast Nat.pos_of_ne_zero hne
      have : (0 : ℚ) < (m : ℚ) * (2 : ℚ) ^ e := mul_pos hmpos hpow
      linarith
    subst hm
    unfold toUint64
    simp only
    rw [truncMagnitude_eq_floor]
    simp [toRat]

theorem round_sign (neg : Bool) (m : Nat) (e : Int) :
    (∃ m1 q, round neg m e = finite neg m1 q) ∨ round neg m e = inf neg := by
  simp only [round]
  split_ifs <;> first | exact Or.inr rfl | exact Or.inl ⟨_, _, rfl⟩

theorem mul_e9_nonneg (a : F64) (hpos : pos a = true) : 0 ≤ toRat (mul a e9) := by
  cases a with
  | nan => simp [pos] at hpos
  | inf neg => simp [mul, e9, toRat]
  | finite neg m e =>
    have hneg : neg = false := by
      cases neg
      · rfl
      · simp [pos] at hpos
    subst hneg
    have hmul : mul (finite false m e) e9 = round false (m * 1000000000) (e + 0) := rfl
    rw [hmul]
    rcases round_sign false (m * 1000000000) (e + 0) with ⟨m1, q, h⟩ | h
    · rw [h]
      have hpow : (0 : ℚ) < (2 : ℚ) ^ q := zpow_pos (by norm_num) q
      have hval : toRat (finite false m1 q) = (m1 : ℚ) * (2 : ℚ) ^ q := by
        simp [toRat]
      rw [hval]
      positivity
    · rw [h]
      simp [toRat]

/-! ### `round` is exact on representable values and within half a unit in the last place -/

theorem bitLengthAux_zero (fuel : Nat) : bitLengthAux fuel 0 = 0 := by
  cases fuel <;> simp [bitLengthAux]

theorem bitLengthAux_spec (fuel : Nat) : ∀ m : Nat, m ≤ fuel →
    m < 2 ^ bitLengthAux fuel m ∧ (m ≠ 0 → 2 ^ (bitLengthAux fuel m - 1) ≤ m) := by
  induction fuel with
  | zero =>
    intro m hm
    have : m = 0 := by omega
    subst this
    simp [bitLengthAux]
  | succ fuel ih =>
    intro m hm
    by_cases h0 : m = 0
    · subst h0
      simp [bitLengthAux]
    · have hhalf : m / 2 ≤ fuel := by omega
      obtain ⟨hlt, hge⟩ := ih (m / 2) hhalf
      have hdef : bitLengthAux (fuel + 1) m = bitLengthAux fuel (m / 2) + 1 := by
        simp [bitLengthAux, h0]
      rw [hdef]
      constructor
      · rw [pow_succ]
        omega
      · intro _
        rw [Nat.add_sub_cancel]
        by_cases h1 : m / 2 = 0
        · rw [h1, bitLengthAux_zero]
          simp
          omega
        · have hb := hge h1
          have hbpos : bitLengthAux fuel (m / 2) ≠ 0 := by
            intro hz
            rw [hz] at hlt
            simp at hlt
            exact h1 hlt
          have : 2 ^ bitLengthAux fuel (m / 2) = 2 ^ (bitLengthAux fuel (m / 2) - 1) * 2 := by
            rw [← pow_succ]
            congr 1
            omega
          omega

theorem bitLength_spec (m : Nat) (hm : m ≠ 0) :
    2 ^ (bitLength m - 1) ≤ m ∧ m < 2 ^ bitLength m :=
  ⟨(bitLengthAux_spec m m le_rfl).2 hm, (bitLengthAux_spec m m le_rfl).1⟩

theorem bitLength_pos (m : Nat) (hm : m ≠ 0) : 0 < bitLength m := by
  by_contra h
  have hz : bitLength m = 0 := by omega
  have := (bitLength_spec m hm).2
  rw [hz] at this
  simp at this
  exact hm this


theorem zpow_two_eq_of_toNat (a : Int) (ha : 0 ≤ a) : (2 : ℚ) ^ a = ((2 ^ a.toNat : ℕ) : ℚ) := by
  obtain ⟨k, rfl⟩ := Int.eq_ofNat_of_zero_le ha
  rw [Int.toNat_natCast, zpow_natCast]
  push_cast
  rfl

/-- Scaling both sides of an equation of values to a common exponent. -/
theorem nat_eq_of_value_eq (m m0 : Nat) (e e0 q : Int) (hq : q ≤ e) (hq0 : q ≤ e0)
    (hv : (m : ℚ) * (2 : ℚ) ^ e = (m0 : ℚ) * (2 : ℚ) ^ e0) :
    m * 2 ^ (e - q).toNat = m0 * 2 ^ (e0 - q).toNat := by
  have h2 : (2 : ℚ) ≠ 0 := two_ne_zero
  have h1 : (m : ℚ) * (2 : ℚ) ^ (e - q) = (m0 : ℚ) * (2 : ℚ) ^ (e0 - q) := by
    rw [sub_eq_add_neg, sub_eq_add_neg, zpow_add₀ h2, zpow_add₀ h2, ← mul_assoc, ← mul_assoc, hv]
  rw [zpow_two_eq_of_toNat (e - q) (by omega), zpow_two_eq_of_toNat (e0 - q) (by omega)] at h1
  exact_mod_cast h1

theorem round_exact (neg : Bool) (m : Nat) (e : Int) (m0 : Nat) (e0 : Int)
    (hm0 : m0 < 2 ^ 53) (hlo : -1074 ≤ e0) (hhi : e0 ≤ 971)
    (hv : (m : ℚ) * (2 : ℚ) ^ e = (m0 : ℚ) * (2 : ℚ) ^ e0) :
    (round neg m e).isFinite = true ∧
      toRat (round neg m e) = (if neg then -1 else 1) * (m : ℚ) * (2 : ℚ) ^ e := by
  by_cases hm : m = 0
  · subst hm
    simp [round, isFinite, toRat]
  · obtain ⟨hLlo, hLhi⟩ := bitLength_spec m hm
    have hLpos := bitLength_pos m hm
    have h2 : (2 : ℚ) ≠ 0 := two_ne_zero
    -- the exponent chosen by `round` is at most `e0`
    have hqe0 : max (e + (bitLength m : Int) - 53) (-1074) ≤ e0 := by
      apply max_le _ hlo
      by_contra hcon
      have hlt : e0 + 53 ≤ e + ((bitLength m - 1 : ℕ) : ℤ) := by omega
      have hA : (m0 : ℚ) * (2 : ℚ) ^ e0 < (2 : ℚ) ^ (e0 + 53) := by
        rw [zpow_add₀ h2, mul_comm]
        have hpos : (0 : ℚ) < (2 : ℚ) ^ e0 := zpow_pos (by norm_num) e0
        have : (m0 : ℚ) < (2 : ℚ) ^ (53 : ℤ) := by
          have h53 : (2 : ℚ) ^ (53 : ℤ) = ((2 ^ 53 : ℕ) : ℚ) := by norm_num
          rw [h53]
          exact_mod_cast hm0
        exact mul_lt_mul_of_pos_left this hpos
      have hB : (2 : ℚ) ^ (e0 + 53) ≤ (2 : ℚ) ^ (e + ((bitLength m - 1 : ℕ) : ℤ)) :=
        zpow_le_zpow_right₀ (by norm_num) hlt
      have hC : (2 : ℚ) ^ (e + ((bitLength m - 1 : ℕ) : ℤ)) ≤ (m : ℚ) * (2 : ℚ) ^ e := by
        rw [zpow_add₀ h2, zpow_natCast, mul_comm]
        have hpos : (0 : ℚ) < (2 : ℚ) ^ e := zpow_pos (by norm_num) e
        have : ((2 : ℚ) ^ (bitLength m - 1)) ≤ (m : ℚ) := by exact_mod_cast hLlo
        exact mul_le_mul_of_nonneg_right this hpos.le
      rw [hv] at hC
      exact absurd (lt_of_lt_of_le hA (le_trans hB hC)) (lt_irrefl _)
    -- the mantissa computed by `round`
    have key : round neg m e
        = finite neg (m0 * 2 ^ (e0 - max (e + (bitLength m : Int) - 53) (-1074)).toNat)
            (max (e + (bitLength m : Int) - 53) (-1074)) := by
      simp only [round, if_neg hm]
      generalize hq : max (e + (bitLength m : Int) - 53) (-1074) = q at hqe0 ⊢
      have hm1 : roundMantissa m e q = m0 * 2 ^ (e0 - q).toNat := by
        by_cases hqe : q ≤ e
        · simp only [roundMantissa, if_pos hqe]
          exact nat_eq_of_value_eq m m0 e e0 q hqe hqe0 hv
        · simp only [roundMantissa, if_neg hqe]
          have hsplit : m * 2 ^ (e - e).toNat = m0 * 2 ^ (e0 - e).toNat :=
            nat_eq_of_value_eq m m0 e e0 e le_rfl (by omega) hv
          have hexp : (e0 - e).toNat = (e0 - q).toNat + (q - e).toNat := by omega
          rw [sub_self, Int.toNat_zero, pow_zero, mul_one, hexp, pow_add, ← mul_assoc] at hsplit
          have hpow : 0 < 2 ^ (q - e).toNat := Nat.pow_pos (by norm_num)
          have hquo : m / 2 ^ (q - e).toNat = m0 * 2 ^ (e0 - q).toNat := by
            rw [hsplit]
            exact Nat.mul_div_cancel _ hpow
          have hrem : m % 2 ^ (q - e).toNat = 0 := by
            rw [hsplit]
            exact Nat.mul_mod_left _ _
          have hhalf : 0 < 2 ^ ((q - e).toNat - 1) := Nat.pow_pos (by norm_num)
          rw [hrem, hquo, if_neg]
          rintro (h | ⟨h, -⟩) <;> omega
      rw [hm1]
      rw [if_neg]
      rintro (h | ⟨h1, h2⟩)
      · omega
      · have he0 : e0 = q := by omega
        rw [he0, sub_self, Int.toNat_zero, pow_zero, mul_one] at h2
        omega
    rw [key]
    refine ⟨rfl, ?_⟩
    generalize hq : max (e + (bitLength m : Int) - 53) (-1074) = q at hqe0 ⊢
    simp only [toRat]
    have hcast : ((m0 * 2 ^ (e0 - q).toNat : ℕ) : ℚ) * (2 : ℚ) ^ q = (m0 : ℚ) * (2 : ℚ) ^ e0 := by
      push_cast
      rw [← zpow_natCast, Int.toNat_of_nonneg (by omega), mul_assoc, ← zpow_add₀ h2]
      congr 2
      omega
    rw [mul_assoc, hcast, mul_assoc, hv]

/-- What `round` returns is a float64 within half a unit in the last place of
the exact value. -/
theorem round_nearest (neg : Bool) (m : Nat) (e : Int) (m1 : Nat) (q : Int)
    (h : round neg m e = finite neg m1 q) :
    m1 ≤ 2 ^ 53 ∧ -1074 ≤ q ∧ q ≤ 971 ∧
      |(m1 : ℚ) * (2 : ℚ) ^ q - (m : ℚ) * (2 : ℚ) ^ e| * 2 ≤ (2 : ℚ) ^ q := by
  by_cases hm : m = 0
  · subst hm
    simp only [round, if_true] at h
    cases h
    norm_num
  · obtain ⟨-, hLhi⟩ := bitLength_spec m hm
    have h2 : (2 : ℚ) ≠ 0 := two_ne_zero
    simp only [round, if_neg hm] at h
    generalize hq : max (e + (bitLength m : Int) - 53) (-1074) = q0 at h
    have hq1 : e + (bitLength m : Int) - 53 ≤ q0 := by rw [← hq]; exact le_max_left _ _
    have hq2 : -1074 ≤ q0 := by rw [← hq]; exact le_max_right _ _
    generalize hM : roundMantissa m e q0 = M at h
    split at h
    · cases h
    · rename_i hov
      cases h
      have hq3 : q ≤ 971 := by
        by_contra hc
        exact hov (Or.inl (by omega))
      rw [← hM]
      clear hM hov
      refine ⟨?_, hq2, hq3, ?_⟩
      · by_cases hqe : q ≤ e
        · simp only [roundMantissa, if_pos hqe]
          have hle : bitLength m + (e - q).toNat ≤ 53 := by omega
          calc m * 2 ^ (e - q).toNat
              ≤ 2 ^ bitLength m * 2 ^ (e - q).toNat :=
                Nat.mul_le_mul_right _ hLhi.le
            _ = 2 ^ (bitLength m + (e - q).toNat) := (pow_add 2 _ _).symm
            _ ≤ 2 ^ 53 := Nat.pow_le_pow_right (by norm_num) hle
        · simp only [roundMantissa, if_neg hqe]
          have hle : bitLength m ≤ 53 + (q - e).toNat := by omega
          have hquo : m / 2 ^ (q - e).toNat < 2 ^ 53 := by
            rw [Nat.div_lt_iff_lt_mul (Nat.pow_pos (by norm_num))]
            calc m < 2 ^ bitLength m := hLhi
              _ ≤ 2 ^ (53 + (q - e).toNat) := Nat.pow_le_pow_right (by norm_num) hle
              _ = 2 ^ 53 * 2 ^ (q - e).toNat := pow_add 2 _ _
          split <;> omega
      · by_cases hqe : q ≤ e
        · simp only [roundMantissa, if_pos hqe]
          have hcast : ((m * 2 ^ (e - q).toNat : ℕ) : ℚ) * (2 : ℚ) ^ q
              = (m : ℚ) * (2 : ℚ) ^ e := by
            push_cast
            rw [← zpow_natCast, Int.toNat_of_nonneg (by omega), mul_assoc, ← zpow_add₀ h2]
            congr 2
            omega
          rw [hcast, sub_self, abs_zero, zero_mul]
          positivity
        · simp only [roundMantissa, if_neg hqe]
          generalize hsh : (q - e).toNat = sh
          have hshpos : 0 < sh := by omega
          have hq : q = e + (sh : ℤ) := by omega
          have hpow : 2 ^ sh = 2 * 2 ^ (sh - 1) := by
            rw [← pow_succ']
            congr 1
            omega
          have hdm := Nat.div_add_mod m (2 ^ sh)
          have hrem : m % 2 ^ sh < 2 ^ sh := Nat.mod_lt _ (Nat.pow_pos (by norm_num))
          have hpe : (0 : ℚ) < (2 : ℚ) ^ e := zpow_pos (by norm_num) e
          have hfac : ∀ x : ℕ, (x : ℚ) * (2 : ℚ) ^ q - (m : ℚ) * (2 : ℚ) ^ e
              = ((x : ℚ) * (2 : ℚ) ^ sh - (m : ℚ)) * (2 : ℚ) ^ e := by
            intro x
            rw [hq, zpow_add₀ h2, zpow_natCast]
            ring
          have hqpow : (2 : ℚ) ^ q = ((2 ^ sh : ℕ) : ℚ) * (2 : ℚ) ^ e := by
            rw [hq, zpow_add₀ h2, zpow_natCast]
            push_cast
            ring
          have hbound : ∀ x : ℕ, x * 2 ^ sh ≤ m + 2 ^ (sh - 1) → m ≤ x * 2 ^ sh + 2 ^ (sh - 1) →
              |(x : ℚ) * (2 : ℚ) ^ q - (m : ℚ) * (2 : ℚ) ^ e| * 2 ≤ (2 : ℚ) ^ q := by
            intro x hx1 hx2
            rw [hfac, abs_mul, abs_of_pos hpe, hqpow]
            have habs : |(x : ℚ) * (2 : ℚ) ^ sh - (m : ℚ)| * 2 ≤ ((2 ^ sh : ℕ) : ℚ) := by
              have h1 : ((x * 2 ^ sh : ℕ) : ℚ) ≤ ((m + 2 ^ (sh - 1) : ℕ) : ℚ) := by
                exact_mod_cast hx1
              have h2' : ((m : ℕ) : ℚ) ≤ ((x * 2 ^ sh + 2 ^ (sh - 1) : ℕ) : ℚ) := by
                exact_mod_cast hx2
              have h3 : ((2 ^ sh : ℕ) : ℚ) = 2 * ((2 ^ (sh - 1) : ℕ) : ℚ) := by
                exact_mod_cast hpow
              push_cast at h1 h2' h3 ⊢
              rw [h3] at h1 h2'
              rw [h3, mul_comm, mul_le_mul_left (by norm_num : (0 : ℚ) < 2), abs_le]
              constructor <;> linarith
            calc |(x : ℚ) * (2 : ℚ) ^ sh - (m : ℚ)| * (2 : ℚ) ^ e * 2
                = (|(x : ℚ) * (2 : ℚ) ^ sh - (m : ℚ)| * 2) * (2 : ℚ) ^ e := by ring
              _ ≤ ((2 ^ sh : ℕ) : ℚ) * (2 : ℚ) ^ e :=
                mul_le_mul_of_nonneg_right habs hpe.le
          have e1 : (m / 2 ^ sh + 1) * 2 ^ sh = 2 ^ sh * (m / 2 ^ sh) + 2 ^ sh := by ring
          have e2 : m / 2 ^ sh * 2 ^ sh = 2 ^ sh * (m / 2 ^ sh) := by ring
          split
          · rename_i hup
            apply hbound
            · rw [e1]
              rcases hup with hup | ⟨hup, -⟩ <;> omega
            · rw [e1]
              omega
          · rename_i hdown
            have hle : m % 2 ^ sh ≤ 2 ^ (sh - 1) := by
              by_contra hc
              exact hdown (Or.inl (by omega))
            apply hbound
            · rw [e2]
              omega
            · rw [e2]
              omega
end F64

/-! ## Shape of a completed builder run -/

theorem Main.prepareTransaction_ok_inv (d : Main.TransferDeps) (s r : PublicKey) (a : F64)
    (p : Main.Prepared) (h : Main.prepareTransaction d s r a = .ok p) :
    ∃ bh tx ser, d.GetLatestBlockhash = .ok bh ∧
      d.NewTransaction (Main.transferTxParam s r (Main.lamports d a) bh) = .ok tx ∧
      d.Serialize tx = .ok ser ∧
      p = { txParam := Main.transferTxParam s r (Main.lamports d a) bh, encodedTx := d.EncodeToString ser } := by
  unfold Main.prepareTransaction at h
  simp only at h
  split at h
  · cases h
  · rename_i bh hbh
    split at h
    · cases h
    · rename_i tx htx
      split at h
      · cases h
      · rename_i ser hser
        refine ⟨bh, tx, ser, hbh, htx, hser, ?_⟩
        cases h
        rfl

/-- When the three external calls succeed, `prepareTransaction` returns. -/
theorem Main.prepareTransaction_ok (d : Main.TransferDeps) (s r : PublicKey) (a : F64)
    (bh : String) (tx : Transaction) (ser : List Nat)
    (hbh : d.GetLatestBlockhash = .ok bh)
    (htx : d.NewTransaction (Main.transferTxParam s r (Main.lamports d a) bh) = .ok tx)
    (hser : d.Serialize tx = .ok ser) :
    Main.prepareTransaction d s r a
      = .ok { txParam := Main.transferTxParam s r (Main.lamports d a) bh
              encodedTx := d.EncodeToString ser } := by
  unfold Main.prepareTransaction
  simp only [hbh, htx, hser]

/-- When the seven external calls succeed, `mintNFT` returns. -/
theorem App.mintNFT_ok (d : App.MintDeps) (md : App.MintNFTParams) (fp : Account)
    (ata meta edition : PublicKey) (rent : Nat) (bh : String) (tx : Transaction)
    (ser : List Nat)
    (hata : d.FindAssociatedTokenAddress fp.PublicKey (d.NewAccount 0).PublicKey = .ok ata)
    (hmeta : d.GetTokenMetaPubkey (d.NewAccount 0).PublicKey = .ok meta)
    (hed : d.GetMasterEdition (d.NewAccount 0).PublicKey = .ok edition)
    (hrent : d.GetMinimumBalanceForRentExemption d.MintAccountSize = .ok rent)
    (hbh : d.GetLatestBlockhash = .ok bh)
    (htx : d.NewTransaction
      (App.mintNFTTxParam d md fp (d.NewAccount 0) (d.NewAccount 1) ata meta edition rent bh)
      = .ok tx)
    (hser : d.Serialize tx = .ok ser) :
    App.mintNFT d md fp
      = .ok { txParam :=
                App.mintNFTTxParam d md fp (d.NewAccount 0) (d.NewAccount 1) ata meta edition rent bh
              transaction := d.EncodeToString ser
              message := "Mint NFT " ++ md.Name } := by
  unfold App.mintNFT
  simp only [hata, hmeta, hed, hrent, hbh, htx, hser]

theorem Main.prepareTransaction_blockhash_error(d : Main.TransferDeps) (s r : PublicKey)
    (a : F64) (e : String) (h : d.GetLatestBlockhash = .error e) :
    Main.prepareTransaction d s r a = .error ("failed to get recent blockhash: " ++ e) := by
  unfold Main.prepareTransaction
  simp only [h]

theorem App.mintNFT_ok_inv (d : App.MintDeps) (md : App.MintNFTParams) (fp : Account)
    (res : App.MintNFTResult) (h : App.mintNFT d md fp = .ok res) :
    ∃ ata meta edition rent bh tx ser,
      d.FindAssociatedTokenAddress fp.PublicKey (d.NewAccount 0).PublicKey = .ok ata ∧
      d.GetTokenMetaPubkey (d.NewAccount 0).PublicKey = .ok meta ∧
      d.GetMasterEdition (d.NewAccount 0).PublicKey = .ok edition ∧
      d.GetMinimumBalanceForRentExemption d.MintAccountSize = .ok rent ∧
      d.GetLatestBlockhash = .ok bh ∧
      d.NewTransaction
        (App.mintNFTTxParam d md fp (d.NewAccount 0) (d.NewAccount 1) ata meta edition rent bh)
        = .ok tx ∧
      d.Serialize tx = .ok ser ∧
      res = { txParam :=
                App.mintNFTTxParam d md fp (d.NewAccount 0) (d.NewAccount 1) ata meta edition rent bh
              transaction := d.EncodeToString ser
              message := "Mint NFT " ++ md.Name } := by
  unfold App.mintNFT at h
  simp only at h
  split at h
  · cases h
  · rename_i ata hata
    split at h
    · cases h
    · rename_i meta hmeta
      split at h
      · cases h
      · rename_i edition hed
        split at h
        · cases h
        · rename_i rent hrent
          split at h
          · cases h
          · rename_i bh hbh
            split at h
            · cases h
            · rename_i tx htx
              split at h
              · cases h
              · rename_i ser hser
                refine ⟨ata, meta, edition, rent, bh, tx, ser, hata, hmeta, hed, hrent, hbh, htx,
                  hser, ?_⟩
                cases h
                rfl

/-- Every representation of the float64 `2` gives 2_000_000_000 lamports. -/
theorem Main.lamports_two (d : Main.TransferDeps) (two : F64) (hfin : two.isFinite = true)
    (hval : two.toRat = 2) : Main.lamports d two = 2000000000 := by
  cases two with
  | nan => cases hfin
  | inf neg => cases hfin
  | finite neg m e =>
    have hpow : (0 : ℚ) < (2 : ℚ) ^ e := zpow_pos (by norm_num) e
    have hneg : neg = false := by
      cases neg
      · rfl
      · exfalso
        have h1 : F64.toRat (F64.finite true m e) = -((m : ℚ) * (2 : ℚ) ^ e) := by
          simp [F64.toRat]
        rw [h1] at hval
        have : (0 : ℚ) ≤ (m : ℚ) * (2 : ℚ) ^ e := by positivity
        linarith
    subst hneg
    have hval2 : (m : ℚ) * (2 : ℚ) ^ e = 2 := by
      have h1 : F64.toRat (F64.finite false m e) = (m : ℚ) * (2 : ℚ) ^ e := by
        simp [F64.toRat]
      rw [h1] at hval
      exact hval
    have hmul : F64.mul (F64.finite false m e) F64.e9
        = F64.round false (m * 1000000000) (e + 0) := rfl
    have hv : ((m * 1000000000 : ℕ) : ℚ) * (2 : ℚ) ^ (e + 0)
        = ((2000000000 : ℕ) : ℚ) * (2 : ℚ) ^ (0 : ℤ) := by
      have h1 : ((m * 1000000000 : ℕ) : ℚ) * (2 : ℚ) ^ (e + 0)
          = ((m : ℚ) * (2 : ℚ) ^ e) * 1000000000 := by
        push_cast
        rw [add_zero]
        ring
      rw [h1, hval2]
      norm_num
    obtain ⟨hf, ht⟩ := F64.round_exact false (m * 1000000000) (e + 0) 2000000000 0
      (by norm_num) (by norm_num) (by norm_num) hv
    have ht2 : F64.toRat (F64.round false (m * 1000000000) (e + 0)) = ((2000000000 : ℕ) : ℚ) := by
      rw [ht]
      simp only [Bool.false_eq_true, if_false, one_mul]
      rw [hv]
      norm_num
    unfold Main.lamports
    rw [hmul]
    cases hr : F64.round false (m * 1000000000) (e + 0) with
    | finite n m1 q =>
      rw [hr] at ht2
      rw [F64.toUint64_eq_floor d.uint64OutOfRange n m1 q (by rw [ht2]; positivity)
        (by rw [ht2]; norm_num), ht2, Nat.floor_natCast]
    | inf n =>
      rw [hr] at hf
      cases hf
    | nan =>
      rw [hr] at hf
      cases hf

/-! ## The branches of the two POST handlers -/

theorem status_500_ne_400 : (500 : Nat) ≠ 400 := by decide

theorem status_200_ne_400 : (200 : Nat) ≠ 400 := by decide

theorem status_500_ne_200 : (500 : Nat) ≠ 200 := by decide


theorem Main.handlePostRequest_bind_error (d : Main.TransferDeps) (c : Context) (e : String)
    (hb : d.ShouldBindJSON c.body = .error e) :
    Main.handlePostRequest d c
      = { response := cJSON 400 (.obj [("error", .str "Error decoding payload")])
          prepareCall := none } := by
  unfold Main.handlePostRequest
  simp only [hb]

theorem Main.handlePostRequest_parse_error (d : Main.TransferDeps) (c : Context)
    (payload : Main.PostRequest) (e : String)
    (hb : d.ShouldBindJSON c.body = .ok payload)
    (hp : d.ParseFloat (c.Query "amount") = .error e) :
    Main.handlePostRequest d c
      = { response := cJSON 400 (.obj [("error", .str "Invalid amount")])
          prepareCall := none } := by
  unfold Main.handlePostRequest
  simp only [hb, hp]

theorem Main.handlePostRequest_prepare_error (d : Main.TransferDeps) (c : Context)
    (payload : Main.PostRequest) (a : F64) (e : String)
    (hb : d.ShouldBindJSON c.body = .ok payload)
    (hp : d.ParseFloat (c.Query "amount") = .ok a)
    (ht : Main.prepareTransaction d (d.PublicKeyFromString payload.Account)
      d.NewAccount.PublicKey a = .error e) :
    Main.handlePostRequest d c
      = { response := cJSON 500 (.obj [("error", .str "Error preparing transaction")])
          prepareCall := some (d.PublicKeyFromString payload.Account, d.NewAccount.PublicKey, a) } := by
  unfold Main.handlePostRequest
  simp only [hb, hp, ht]

theorem Main.handlePostRequest_ok (d : Main.TransferDeps) (c : Context)
    (payload : Main.PostRequest) (a : F64) (p : Main.Prepared)
    (hb : d.ShouldBindJSON c.body = .ok payload)
    (hp : d.ParseFloat (c.Query "amount") = .ok a)
    (ht : Main.prepareTransaction d (d.PublicKeyFromString payload.Account)
      d.NewAccount.PublicKey a = .ok p) :
    Main.handlePostRequest d c
      = { response := cJSON 200 (Main.PostResponse.toJSON
            { Transaction := p.encodedTx, Message := "Transaction sent successfully" })
          prepareCall := some (d.PublicKeyFromString payload.Account, d.NewAccount.PublicKey, a) } := by
  unfold Main.handlePostRequest
  simp only [hb, hp, ht]

theorem App.PostHandler_query_error (d : App.MintDeps) (c : Context) (e : String)
    (hq : App.ShouldBindQuery c = .error e) :
    App.PostHandler d c
      = { response := some (cJSON 400 (App.ActionError.toJSON { Message := "Invalid Query Params" }))
          mintNFTCall := none, fatal := none } := by
  unfold App.PostHandler
  simp only [hq]

theorem App.PostHandler_bind_error (d : App.MintDeps) (c : Context) (q : App.MintNFTParams)
    (e : String) (hq : App.ShouldBindQuery c = .ok q) (hb : d.ShouldBindJSON c.body = .error e) :
    App.PostHandler d c
      = { response := some (cJSON 400 (App.ActionError.toJSON { Message := "Invalid request" }))
          mintNFTCall := none, fatal := none } := by
  unfold App.PostHandler
  simp only [hq, hb]

theorem App.PostHandler_account_error (d : App.MintDeps) (c : Context) (q : App.MintNFTParams)
    (request : App.ActionPostRequest) (e : String)
    (hq : App.ShouldBindQuery c = .ok q) (hb : d.ShouldBindJSON c.body = .ok request)
    (ha : d.AccountFromBase58 request.Account = .error e) :
    App.PostHandler d c
      = { response := some (cJSON 400
            (App.ActionError.toJSON { Message := "Invalid request; Error validating account" }))
          mintNFTCall := none, fatal := none } := by
  unfold App.PostHandler
  simp only [hq, hb, ha]

theorem App.PostHandler_fatal (d : App.MintDeps) (c : Context) (q : App.MintNFTParams)
    (request : App.ActionPostRequest) (account : Account) (line : String)
    (hq : App.ShouldBindQuery c = .ok q) (hb : d.ShouldBindJSON c.body = .ok request)
    (ha : d.AccountFromBase58 request.Account = .ok account)
    (hm : App.mintNFT d q account = .error line) :
    App.PostHandler d c
      = { response := none, mintNFTCall := some (q, account), fatal := some line } := by
  unfold App.PostHandler
  simp only [hq, hb, ha, hm]

theorem App.PostHandler_ok (d : App.MintDeps) (c : Context) (q : App.MintNFTParams)
    (request : App.ActionPostRequest) (account : Account) (res : App.MintNFTResult)
    (hq : App.ShouldBindQuery c = .ok q) (hb : d.ShouldBindJSON c.body = .ok request)
    (ha : d.AccountFromBase58 request.Account = .ok account)
    (hm : App.mintNFT d q account = .ok res) :
    App.PostHandler d c
      = { response := some (cJSON 200 (App.ActionPostResponse.toJSON
            { Fields := { Transaction := res.transaction, Message := res.message } }))
          mintNFTCall := some (q, account), fatal := none } := by
  unfold App.PostHandler
  simp only [hq, hb, ha, hm]

/-- The five ways a run of `handlePostRequest` can go. -/
theorem Main.handlePostRequest_cases (d : Main.TransferDeps) (c : Context) :
    (∃ e, d.ShouldBindJSON c.body = .error e) ∨
    (∃ payload e, d.ShouldBindJSON c.body = .ok payload ∧
      d.ParseFloat (c.Query "amount") = .error e) ∨
    (∃ payload a e, d.ShouldBindJSON c.body = .ok payload ∧
      d.ParseFloat (c.Query "amount") = .ok a ∧
      Main.prepareTransaction d (d.PublicKeyFromString payload.Account)
        d.NewAccount.PublicKey a = .error e) ∨
    (∃ payload a p, d.ShouldBindJSON c.body = .ok payload ∧
      d.ParseFloat (c.Query "amount") = .ok a ∧
      Main.prepareTransaction d (d.PublicKeyFromString payload.Account)
        d.NewAccount.PublicKey a = .ok p) := by
  cases hb : d.ShouldBindJSON c.body with
  | error e => exact Or.inl ⟨e, rfl⟩
  | ok payload =>
    cases hp : d.ParseFloat (c.Query "amount") with
    | error e => exact Or.inr (Or.inl ⟨payload, e, rfl, rfl⟩)
    | ok a =>
      cases ht : Main.prepareTransaction d (d.PublicKeyFromString payload.Account)
          d.NewAccount.PublicKey a with
      | error e => exact Or.inr (Or.inr (Or.inl ⟨payload, a, e, rfl, rfl, ht⟩))
      | ok p => exact Or.inr (Or.inr (Or.inr ⟨payload, a, p, rfl, rfl, ht⟩))

/-- The five ways a run of `PostHandler` can go. -/
theorem App.PostHandler_cases (d : App.MintDeps) (c : Context) :
    (∃ e, App.ShouldBindQuery c = .error e) ∨
    (∃ q e, App.ShouldBindQuery c = .ok q ∧ d.ShouldBindJSON c.body = .error e) ∨
    (∃ q request e, App.ShouldBindQuery c = .ok q ∧ d.ShouldBindJSON c.body = .ok request ∧
      d.AccountFromBase58 request.Account = .error e) ∨
    (∃ q request account line, App.ShouldBindQuery c = .ok q ∧
      d.ShouldBindJSON c.body = .ok request ∧
      d.AccountFromBase58 request.Account = .ok account ∧
      App.mintNFT d q account = .error line) ∨
    (∃ q request account res, App.ShouldBindQuery c = .ok q ∧
      d.ShouldBindJSON c.body = .ok request ∧
      d.AccountFromBase58 request.Account = .ok account ∧
      App.mintNFT d q account = .ok res) := by
  cases hq : App.ShouldBindQuery c with
  | error e => exact Or.inl ⟨e, rfl⟩
  | ok q =>
    cases hb : d.ShouldBindJSON c.body with
    | error e => exact Or.inr (Or.inl ⟨q, e, rfl, rfl⟩)
    | ok request =>
      cases ha : d.AccountFromBase58 request.Account with
      | error e => exact Or.inr (Or.inr (Or.inl ⟨q, request, e, rfl, rfl, ha⟩))
      | ok account =>
        cases hm : App.mintNFT d q account with
        | error line =>
          exact Or.inr (Or.inr (Or.inr (Or.inl ⟨q, request, account, line, rfl, rfl, ha, hm⟩)))
        | ok res =>
          exact Or.inr (Or.inr (Or.inr (Or.inr ⟨q, request, account, res, rfl, rfl, ha, hm⟩)))

/-- A failed rent or blockhash RPC call ends `mintNFT` in a `log.Fatalf`. -/
theorem App.mintNFT_rpc_error (d : App.MintDeps) (md : App.MintNFTParams) (fp : Account)
    (hfail : (∃ e, d.GetMinimumBalanceForRentExemption d.MintAccountSize = .error e) ∨
      (∃ e, d.GetLatestBlockhash = .error e)) :
    ∃ line, App.mintNFT d md fp = .error line := by
  cases hm : App.mintNFT d md fp with
  | error line => exact ⟨line, rfl⟩
  | ok res =>
    obtain ⟨ata, meta, edition, rent, bh, tx, ser, -, -, -, hrent, hbh, -, -, -⟩ :=
      App.mintNFT_ok_inv d md fp res hm
    rcases hfail with ⟨e, he⟩ | ⟨e, he⟩
    · rw [he] at hrent
      cases hrent
    · rw [he] at hbh
      cases hbh

/-! ## C1: signer lists -/

/-- C1, as stated, fails: under collaborators that all succeed, `mintNFT`
builds its transaction with the two signers `mint` and `feePayer`, not with an
empty signer list. -/
theorem C1_mintNFT_signer_list_not_empty :
    App.mintNFT Sample.mintDeps Sample.mintParams Sample.feePayer = .ok Sample.minted ∧
      Sample.minted.txParam.Signers
        = [{ PublicKey := ⟨"fresh0"⟩, PrivateKey := "secret" }, Sample.feePayer] ∧
      Sample.minted.txParam.Signers ≠ [] := by
  refine ⟨by rfl, by rfl, by decide⟩

/-- C1, amended: a transaction produced by `prepareTransaction` is constructed
with an empty signer list; a transaction produced by `mintNFT` is constructed
with the signer list `[mint, feePayer]`, `mint` being the first key pair
generated in the request. -/
theorem C1_signer_lists (dT : Main.TransferDeps) (s r : PublicKey) (a : F64)
    (p : Main.Prepared) (hp : Main.prepareTransaction dT s r a = .ok p)
    (dM : App.MintDeps) (md : App.MintNFTParams) (fp : Account) (res : App.MintNFTResult)
    (hm : App.mintNFT dM md fp = .ok res) :
    p.txParam.Signers = [] ∧ res.txParam.Signers = [dM.NewAccount 0, fp] := by
  obtain ⟨bh, tx, ser, -, -, -, rfl⟩ := Main.prepareTransaction_ok_inv dT s r a p hp
  obtain ⟨ata, meta, edition, rent, bh2, tx2, ser2, -, -, -, -, -, -, -, rfl⟩ :=
    App.mintNFT_ok_inv dM md fp res hm
  exact ⟨rfl, rfl⟩

/-- C1, amended, at the sample requests. -/
theorem C1_signer_lists_witness :
    Main.prepareTransaction Sample.transferDeps Sample.sender Sample.receiver
        (F64.finite false 1 1) = .ok Sample.preparedTwo ∧
      App.mintNFT Sample.mintDeps Sample.mintParams Sample.feePayer = .ok Sample.minted ∧
      Sample.preparedTwo.txParam.Signers = [] ∧
      Sample.minted.txParam.Signers = [Sample.mintDeps.NewAccount 0, Sample.feePayer] :=
  ⟨by rfl, by rfl,
    C1_signer_lists Sample.transferDeps Sample.sender Sample.receiver (F64.finite false 1 1)
      Sample.preparedTwo (by rfl) Sample.mintDeps Sample.mintParams Sample.feePayer
      Sample.minted (by rfl)⟩

/-! ## C3: the six instructions of a mint -/

/-- C3: whenever `mintNFT` builds its message, the instruction list is, in
this order, create-account, initialize-mint, create-metadata-account,
create-associated-token-account, mint-to, create-master-edition: six
instructions, whatever the name, symbol, uri and fee payer are, with
create-account before mint-to. -/
theorem C3_mint_instruction_order (d : App.MintDeps) (md : App.MintNFTParams) (fp : Account)
    (res : App.MintNFTResult) (h : App.mintNFT d md fp = .ok res) :
    res.txParam.Message.Instructions.map Instruction.kind
        = [.createAccount, .initializeMint, .createMetadataAccount,
           .createAssociatedTokenAccount, .mintTo, .createMasterEdition] ∧
      res.txParam.Message.Instructions.length = 6 ∧
      (res.txParam.Message.Instructions.map Instruction.kind).indexOf .createAccount
        < (res.txParam.Message.Instructions.map Instruction.kind).indexOf .mintTo := by
  obtain ⟨ata, meta, edition, rent, bh, tx, ser, -, -, -, -, -, -, -, rfl⟩ :=
    App.mintNFT_ok_inv d md fp res h
  have hk : (App.mintNFTTxParam d md fp (d.NewAccount 0) (d.NewAccount 1) ata meta edition rent
      bh).Message.Instructions.map Instruction.kind
        = [.createAccount, .initializeMint, .createMetadataAccount,
           .createAssociatedTokenAccount, .mintTo, .createMasterEdition] := rfl
  refine ⟨hk, rfl, ?_⟩
  rw [hk]
  decide

/-- C3 at the sample mint request. -/
theorem C3_mint_instruction_order_witness :
    App.mintNFT Sample.mintDeps Sample.mintParams Sample.feePayer = .ok Sample.minted ∧
      Sample.minted.txParam.Message.Instructions.map Instruction.kind
        = [.createAccount, .initializeMint, .createMetadataAccount,
           .createAssociatedTokenAccount, .mintTo, .createMasterEdition] :=
  ⟨by rfl,
    (C3_mint_instruction_order Sample.mintDeps Sample.mintParams Sample.feePayer Sample.minted
      (by rfl)).1⟩

/-! ## C9: the transfer message -/

/-- C9: when `prepareTransaction` succeeds, the message it built has the sender
as fee payer and exactly one instruction, a native transfer from the sender to
the receiver; and when `handlePostRequest` calls `prepareTransaction`, the
sender is the key read from the `account` of the bound body and the receiver is
the public key of the freshly generated account. -/
theorem C9_transfer_message (d : Main.TransferDeps) (s r : PublicKey) (a : F64)
    (p : Main.Prepared) (hp : Main.prepareTransaction d s r a = .ok p) :
    (p.txParam.Message.FeePayer = s ∧
      p.txParam.Message.Instructions.length = 1 ∧
      p.txParam.Message.Instructions
        = [.Transfer { From := s, To := r, Amount := Main.lamports d a }]) ∧
    (∀ (c : Context) (s1 r1 : PublicKey) (a1 : F64),
      (Main.handlePostRequest d c).prepareCall = some (s1, r1, a1) →
        r1 = d.NewAccount.PublicKey ∧
        ∃ payload, d.ShouldBindJSON c.body = .ok payload ∧
          s1 = d.PublicKeyFromString payload.Account) := by
  obtain ⟨bh, tx, ser, -, -, -, rfl⟩ := Main.prepareTransaction_ok_inv d s r a p hp
  refine ⟨⟨rfl, rfl, rfl⟩, ?_⟩
  intro c s1 r1 a1 hcall
  unfold Main.handlePostRequest at hcall
  simp only at hcall
  split at hcall
  · cases hcall
  · rename_i payload hbind
    split at hcall
    · cases hcall
    · split at hcall <;>
      · simp only [Option.some.injEq, Prod.mk.injEq] at hcall
        exact ⟨hcall.2.1.symm, payload, hbind, hcall.1.symm⟩

/-- C9 at the sample transfer request. -/
theorem C9_transfer_message_witness :
    Main.prepareTransaction Sample.transferDeps Sample.sender Sample.receiver
        (F64.finite false 1 1) = .ok Sample.preparedTwo ∧
      Sample.preparedTwo.txParam.Message.FeePayer = Sample.sender ∧
      Sample.preparedTwo.txParam.Message.Instructions
        = [.Transfer { From := Sample.sender, To := Sample.receiver, Amount := 2000000000 }] :=
  ⟨by rfl,
    (C9_transfer_message Sample.transferDeps Sample.sender Sample.receiver (F64.finite false 1 1)
      Sample.preparedTwo (by rfl)).1.1,
    (C9_transfer_message Sample.transferDeps Sample.sender Sample.receiver (F64.finite false 1 1)
      Sample.preparedTwo (by rfl)).1.2.2⟩

/-! ## C8: the three metadata fields -/

/-- C8: in `PostHandler`, when one of the query parameters name, symbol, uri
is absent or empty, the response is 400 with the `ActionError` message
"Invalid Query Params" and `mintNFT` is not called, whatever the body and the
collaborators are; and whenever `mintNFT` is called, the three fields of its
`MintNFTParams` argument are non-empty. -/
theorem C8_mint_params_non_empty (d : App.MintDeps) (c : Context) :
    ((c.Query "name" = "" ∨ c.Query "symbol" = "" ∨ c.Query "uri" = "") →
      (App.PostHandler d c).response
          = some (cJSON 400 (App.ActionError.toJSON { Message := "Invalid Query Params" })) ∧
        (App.PostHandler d c).mintNFTCall = none) ∧
    (∀ (md : App.MintNFTParams) (fp : Account),
      (App.PostHandler d c).mintNFTCall = some (md, fp) →
        md.Name ≠ "" ∧ md.Symbol ≠ "" ∧ md.URI ≠ "") := by
  constructor
  · intro hq
    have hbind : ∃ e, App.ShouldBindQuery c = .error e := by
      unfold App.ShouldBindQuery
      simp only
      by_cases h1 : c.Query "name" = ""
      · exact ⟨_, if_pos h1⟩
      · by_cases h2 : c.Query "symbol" = ""
        · exact ⟨_, by rw [if_neg h1, if_pos h2]⟩
        · have h3 : c.Query "uri" = "" := by
            rcases hq with h | h | h
            · exact absurd h h1
            · exact absurd h h2
            · exact h
          exact ⟨_, by rw [if_neg h1, if_neg h2, if_pos h3]⟩
    obtain ⟨e, he⟩ := hbind
    unfold App.PostHandler
    rw [he]
    exact ⟨rfl, rfl⟩
  · intro md fp hcall
    unfold App.PostHandler at hcall
    split at hcall
    · cases hcall
    · rename_i qPayload hq
      have hne : qPayload.Name ≠ "" ∧ qPayload.Symbol ≠ "" ∧ qPayload.URI ≠ "" := by
        unfold App.ShouldBindQuery at hq
        simp only at hq
        split at hq
        · cases hq
        · rename_i h1
          split at hq
          · cases hq
          · rename_i h2
            split at hq
            · cases hq
            · rename_i h3
              cases hq
              exact ⟨h1, h2, h3⟩
      have hmd : md = qPayload := by
        split at hcall
        · cases hcall
        · split at hcall
          · cases hcall
          · split at hcall <;>
            · simp only [Option.some.injEq, Prod.mk.injEq] at hcall
              exact hcall.1.symm
      rw [hmd]
      exact hne

/-- C8 at two sample requests: one without `symbol`, one complete. -/
theorem C8_mint_params_non_empty_witness :
    Sample.mintContextNoSymbol.Query "symbol" = "" ∧
      (App.PostHandler Sample.mintDeps Sample.mintContextNoSymbol).mintNFTCall = none ∧
      (App.PostHandler Sample.mintDeps Sample.mintContext).mintNFTCall
        = some (Sample.mintParams, Sample.feePayer) ∧
      Sample.mintParams.Name ≠ "" ∧ Sample.mintParams.Symbol ≠ "" ∧ Sample.mintParams.URI ≠ "" :=
  ⟨by rfl,
    ((C8_mint_params_non_empty Sample.mintDeps Sample.mintContextNoSymbol).1
      (Or.inr (Or.inl (by rfl)))).2,
    by rfl,
    (C8_mint_params_non_empty Sample.mintDeps Sample.mintContext).2 Sample.mintParams
      Sample.feePayer (by rfl)⟩

/-! ## C10: the preflight answer -/

/-- C10, as stated, fails for `corsMiddleware`: its answer to an `OPTIONS`
request lists the methods as "GET, POST, OPTIONS" and allows four headers. -/
theorem C10_corsMiddleware_header_values :
    header? "Access-Control-Allow-Methods"
        (Main.corsMiddleware (fun c => (Main.handlePostRequest Sample.transferDeps c).response)
          Sample.optionsContext).headers = some "GET, POST, OPTIONS" ∧
      header? "Access-Control-Allow-Headers"
        (Main.corsMiddleware (fun c => (Main.handlePostRequest Sample.transferDeps c).response)
          Sample.optionsContext).headers
        = some "Content-Type, Authorization, Content-Encoding, Accept-Encoding" ∧
      "GET, POST, OPTIONS" ≠ "GET,POST,OPTIONS" ∧
      "Content-Type, Authorization, Content-Encoding, Accept-Encoding" ≠ "Content-Type" := by
  refine ⟨by rfl, by rfl, by decide, by decide⟩

/-- C10, amended: `OptionsHandler` answers 200 without a body and sets exactly
the three headers of `ACTIONS_CORS_HEADERS` (origin "*", methods
"GET,POST,OPTIONS", headers "Content-Type"), in whatever order the map is
visited; `corsMiddleware` answers an `OPTIONS` request with 200, without a
body and without running the rest of the chain, and sets origin "*", methods
"GET, POST, OPTIONS" and headers
"Content-Type, Authorization, Content-Encoding, Accept-Encoding". -/
theorem C10_preflight (order : List (String × String)) (c : Context)
    (horder : order.Perm App.ACTIONS_CORS_HEADERS)
    (next : Context → Response) (c2 : Context) (hmethod : c2.method = "OPTIONS") :
    ((App.OptionsHandler order c).status = 200 ∧
      (App.OptionsHandler order c).body.isNone = true ∧
      (App.OptionsHandler order c).headers.length = 3 ∧
      header? "Access-Control-Allow-Origin" (App.OptionsHandler order c).headers = some "*" ∧
      header? "Access-Control-Allow-Methods" (App.OptionsHandler order c).headers
        = some "GET,POST,OPTIONS" ∧
      header? "Access-Control-Allow-Headers" (App.OptionsHandler order c).headers
        = some "Content-Type") ∧
    ((Main.corsMiddleware next c2).status = 200 ∧
      (Main.corsMiddleware next c2).body.isNone = true ∧
      (Main.corsMiddleware next c2).headers
        = [("Access-Control-Allow-Origin", "*"),
           ("Access-Control-Allow-Methods", "GET, POST, OPTIONS"),
           ("Access-Control-Allow-Headers",
            "Content-Type, Authorization, Content-Encoding, Accept-Encoding")]) := by
  constructor
  · have hlen : order.length = 3 := horder.length_eq
    have hnd : order.Nodup := horder.nodup_iff.mpr (by decide)
    have hsub : ∀ x ∈ order, x ∈ App.ACTIONS_CORS_HEADERS := fun x hx => horder.subset hx
    match order, hlen, hnd, hsub with
    | [x, y, z], _, hnd, hsub =>
      have hx := hsub x (by simp)
      have hy := hsub y (by simp)
      have hz := hsub z (by simp)
      simp only [App.ACTIONS_CORS_HEADERS, List.mem_cons, List.mem_singleton, List.not_mem_nil,
        or_false] at hx hy hz
      rcases hx with rfl | rfl | rfl <;> rcases hy with rfl | rfl | rfl <;>
        rcases hz with rfl | rfl | rfl <;>
        first
          | exact absurd hnd (by decide)
          | exact ⟨rfl, rfl, rfl, rfl, rfl, rfl⟩
  · have h : Main.corsMiddleware next c2
        = { status := 200
            headers :=
              [("Access-Control-Allow-Origin", "*"),
               ("Access-Control-Allow-Methods", "GET, POST, OPTIONS"),
               ("Access-Control-Allow-Headers",
                "Content-Type, Authorization, Content-Encoding, Accept-Encoding")]
            body := none } := by
      unfold Main.corsMiddleware
      simp only [hmethod, if_true]
      rfl
    rw [h]
    exact ⟨rfl, rfl, rfl⟩

/-- C10, amended, at a sample `OPTIONS` request, the map visited in reverse. -/
theorem C10_preflight_witness :
    (App.OptionsHandler App.ACTIONS_CORS_HEADERS.reverse Sample.optionsContext).status = 200 ∧
      header? "Access-Control-Allow-Methods"
        (App.OptionsHandler App.ACTIONS_CORS_HEADERS.reverse Sample.optionsContext).headers
        = some "GET,POST,OPTIONS" ∧
      (Main.corsMiddleware (fun _ => cJSON 404 (.str "")) Sample.optionsContext).status = 200 :=
  ⟨(C10_preflight App.ACTIONS_CORS_HEADERS.reverse Sample.optionsContext
      (List.reverse_perm _) (fun _ => cJSON 404 (.str "")) Sample.optionsContext (by rfl)).1.1,
    (C10_preflight App.ACTIONS_CORS_HEADERS.reverse Sample.optionsContext
      (List.reverse_perm _) (fun _ => cJSON 404 (.str "")) Sample.optionsContext
      (by rfl)).1.2.2.2.2.1,
    (C10_preflight App.ACTIONS_CORS_HEADERS.reverse Sample.optionsContext
      (List.reverse_perm _) (fun _ => cJSON 404 (.str "")) Sample.optionsContext (by rfl)).2.1⟩

/-! ## C4: a body without `account` -/

/-- C4, as stated, fails for `handlePostRequest`: the body `{}` with
`amount=2` is answered with 200 and a transaction built for the key of the
empty string; and the 400 answer to a body that does not decode has an `error`
field and no `message` field. -/
theorem C4_handlePostRequest_missing_account :
    Sample.transferDeps.ShouldBindJSON Sample.transferContextNoAccount.body
        = .ok { Account := "" } ∧
      (Main.handlePostRequest Sample.transferDeps Sample.transferContextNoAccount).response.status
        = 200 ∧
      (Main.handlePostRequest Sample.transferDeps Sample.transferContextNoAccount).prepareCall
        = some (⟨""⟩, Sample.receiver, F64.finite false 1 1) ∧
      (Main.handlePostRequest Sample.transferDeps Sample.transferContextBadBody).response.status
        = 400 ∧
      (Main.handlePostRequest Sample.transferDeps Sample.transferContextBadBody).response.body.map
        Json.keys = some ["error"] := by
  refine ⟨by rfl, by rfl, by rfl, by rfl, by rfl⟩

/-- C4, amended.  `PostHandler`: when the body has no `account` (so a body that
binds leaves `Account` empty, `hbody`) and the SDK rejects the empty key
(`hempty`), the response is 400 with an `ActionError`, a JSON object whose one
field is `message`, and `mintNFT` is not called, whatever the query is.
`handlePostRequest` does not look at the field: a body that binds with an
empty `Account` is passed on to `prepareTransaction` with the key of the empty
string and the status is not 400; each of its 400 responses is a JSON object
whose one field is `error`. -/
theorem C4_missing_account (d : App.MintDeps) (c : Context)
    (hbody : ∀ request, d.ShouldBindJSON c.body = .ok request → request.Account = "")
    (hempty : ∀ account, d.AccountFromBase58 "" ≠ .ok account) :
    ((∃ msg, (App.PostHandler d c).response
        = some (cJSON 400 (.obj [("message", .str msg)]))) ∧
      (App.PostHandler d c).mintNFTCall = none) ∧
    (∀ (dT : Main.TransferDeps) (cT : Context) (a : F64),
      dT.ShouldBindJSON cT.body = .ok { Account := "" } →
      dT.ParseFloat (cT.Query "amount") = .ok a →
        (Main.handlePostRequest dT cT).prepareCall
          = some (dT.PublicKeyFromString "", dT.NewAccount.PublicKey, a) ∧
        (Main.handlePostRequest dT cT).response.status ≠ 400) ∧
    (∀ (dT : Main.TransferDeps) (cT : Context),
      (Main.handlePostRequest dT cT).response.status = 400 →
        ∃ msg, (Main.handlePostRequest dT cT).response.body = some (.obj [("error", .str msg)])) := by
  refine ⟨?_, ?_, ?_⟩
  · rcases App.PostHandler_cases d c with ⟨e, hq⟩ | ⟨q, e, hq, hb⟩ | ⟨q, request, e, hq, hb, ha⟩ |
      ⟨q, request, account, line, hq, hb, ha, hm⟩ | ⟨q, request, account, res, hq, hb, ha, hm⟩
    · rw [App.PostHandler_query_error d c e hq]
      exact ⟨⟨_, rfl⟩, rfl⟩
    · rw [App.PostHandler_bind_error d c q e hq hb]
      exact ⟨⟨_, rfl⟩, rfl⟩
    · rw [App.PostHandler_account_error d c q request e hq hb ha]
      exact ⟨⟨_, rfl⟩, rfl⟩
    · rw [hbody request hb] at ha
      exact absurd ha (hempty account)
    · rw [hbody request hb] at ha
      exact absurd ha (hempty account)
  · intro dT cT a hb hp
    cases ht : Main.prepareTransaction dT (dT.PublicKeyFromString "") dT.NewAccount.PublicKey a with
    | error e =>
      rw [Main.handlePostRequest_prepare_error dT cT _ a e hb hp ht]
      exact ⟨rfl, fun h => status_500_ne_400 h⟩
    | ok p =>
      rw [Main.handlePostRequest_ok dT cT _ a p hb hp ht]
      exact ⟨rfl, fun h => status_200_ne_400 h⟩
  · intro dT cT hst
    rcases Main.handlePostRequest_cases dT cT with ⟨e, hb⟩ | ⟨payload, e, hb, hp⟩ |
      ⟨payload, a, e, hb, hp, ht⟩ | ⟨payload, a, p, hb, hp, ht⟩
    · rw [Main.handlePostRequest_bind_error dT cT e hb]
      exact ⟨_, rfl⟩
    · rw [Main.handlePostRequest_parse_error dT cT payload e hb hp]
      exact ⟨_, rfl⟩
    · rw [Main.handlePostRequest_prepare_error dT cT payload a e hb hp ht] at hst
      exact absurd hst status_500_ne_400
    · rw [Main.handlePostRequest_ok dT cT payload a p hb hp ht] at hst
      exact absurd hst status_200_ne_400

/-- C4, amended, at the sample mint request whose body is `{}`. -/
theorem C4_missing_account_witness :
    (App.PostHandler Sample.mintDeps Sample.mintContextNoAccount).response.map Response.status
        = some 400 ∧
      (App.PostHandler Sample.mintDeps Sample.mintContextNoAccount).mintNFTCall = none :=
  ⟨by rfl,
    (C4_missing_account Sample.mintDeps Sample.mintContextNoAccount
      (fun request h => by
        have h2 : (Except.ok { Account := "" } : Except String App.ActionPostRequest)
            = .ok request := h
        cases h2
        rfl)
      (fun account h => by
        have h2 : (Except.error "zero length string" : Except String Account) = .ok account := h
        cases h2)).1.2⟩

/-! ## C5: the amount is not checked for sign -/

/-- C5, as stated, fails: `amount=0` and `amount=NaN` parse to values that are
not strictly positive, the response is 200, not 400, and `prepareTransaction`
is called with the parsed value. -/
theorem C5_non_positive_amount_accepted :
    Sample.transferDeps.ParseFloat ((Sample.transferContext "0").Query "amount")
        = .ok (F64.finite false 0 0) ∧
      F64.pos (F64.finite false 0 0) = false ∧
      (Main.handlePostRequest Sample.transferDeps (Sample.transferContext "0")).response.status
        = 200 ∧
      (Main.handlePostRequest Sample.transferDeps (Sample.transferContext "0")).prepareCall
        = some (Sample.sender, Sample.receiver, F64.finite false 0 0) ∧
      Sample.transferDeps.ParseFloat ((Sample.transferContext "NaN").Query "amount")
        = .ok F64.nan ∧
      F64.pos F64.nan = false ∧
      (Main.handlePostRequest Sample.transferDeps (Sample.transferContext "NaN")).response.status
        = 200 ∧
      (Main.handlePostRequest Sample.transferDeps (Sample.transferContext "NaN")).prepareCall
        = some (Sample.sender, Sample.receiver, F64.nan) := by
  refine ⟨by rfl, by rfl, by rfl, by rfl, by rfl, by rfl, by rfl, by rfl⟩

/-- C5, amended: `handlePostRequest` answers 400 exactly when the body does
not bind or the `amount` query parameter does not parse as a float, and these
are the only runs in which `prepareTransaction` is not called; an amount that
parses is passed to `prepareTransaction` as it is, whatever its sign. -/
theorem C5_amount_validation (d : Main.TransferDeps) (c : Context) :
    ((Main.handlePostRequest d c).response.status = 400 ↔
      ((∃ e, d.ShouldBindJSON c.body = .error e) ∨
        (∃ e, d.ParseFloat (c.Query "amount") = .error e))) ∧
    ((Main.handlePostRequest d c).prepareCall = none ↔
      (Main.handlePostRequest d c).response.status = 400) ∧
    (∀ (payload : Main.PostRequest) (a : F64),
      d.ShouldBindJSON c.body = .ok payload → d.ParseFloat (c.Query "amount") = .ok a →
        (Main.handlePostRequest d c).prepareCall
          = some (d.PublicKeyFromString payload.Account, d.NewAccount.PublicKey, a)) := by
  rcases Main.handlePostRequest_cases d c with ⟨e, hb⟩ | ⟨payload, e, hb, hp⟩ |
    ⟨payload, a, e, hb, hp, ht⟩ | ⟨payload, a, p, hb, hp, ht⟩
  · rw [Main.handlePostRequest_bind_error d c e hb]
    refine ⟨⟨fun _ => Or.inl ⟨e, hb⟩, fun _ => rfl⟩, ⟨fun _ => rfl, fun _ => rfl⟩, ?_⟩
    intro payload a hb2
    rw [hb] at hb2
    cases hb2
  · rw [Main.handlePostRequest_parse_error d c payload e hb hp]
    refine ⟨⟨fun _ => Or.inr ⟨e, hp⟩, fun _ => rfl⟩, ⟨fun _ => rfl, fun _ => rfl⟩, ?_⟩
    intro payload2 a _ hp2
    rw [hp] at hp2
    cases hp2
  · rw [Main.handlePostRequest_prepare_error d c payload a e hb hp ht]
    refine ⟨⟨fun h => absurd h status_500_ne_400, ?_⟩,
      ⟨fun h => Option.noConfusion h, fun h => absurd h status_500_ne_400⟩, ?_⟩
    · rintro (⟨e2, h2⟩ | ⟨e2, h2⟩)
      · rw [hb] at h2
        cases h2
      · rw [hp] at h2
        cases h2
    · intro payload2 a2 hb2 hp2
      rw [hb] at hb2
      rw [hp] at hp2
      cases hb2
      cases hp2
      rfl
  · rw [Main.handlePostRequest_ok d c payload a p hb hp ht]
    refine ⟨⟨fun h => absurd h status_200_ne_400, ?_⟩,
      ⟨fun h => Option.noConfusion h, fun h => absurd h status_200_ne_400⟩, ?_⟩
    · rintro (⟨e2, h2⟩ | ⟨e2, h2⟩)
      · rw [hb] at h2
        cases h2
      · rw [hp] at h2
        cases h2
    · intro payload2 a2 hb2 hp2
      rw [hb] at hb2
      rw [hp] at hp2
      cases hb2
      cases hp2
      rfl

/-- C5, amended, at the sample request with `amount=-1`. -/
theorem C5_amount_validation_witness :
    F64.pos (F64.finite true 1 0) = false ∧
      (Main.handlePostRequest Sample.transferDeps (Sample.transferContext "-1")).prepareCall
        = some (Sample.sender, Sample.receiver, F64.finite true 1 0) :=
  ⟨by rfl,
    (C5_amount_validation Sample.transferDeps (Sample.transferContext "-1")).2.2
      { Account := Sample.accountString } (F64.finite true 1 0) (by rfl) (by rfl)⟩

/-! ## C6: a failed RPC call -/

/-- C6, as stated, fails for `PostHandler`: when the rent RPC call of `mintNFT`
fails, the process ends in `log.Fatalf` and no response is written (no 500);
the log line carries the text of the error. -/
theorem C6_mintNFT_rpc_failure_ends_process :
    Sample.mintDepsRentFails.GetMinimumBalanceForRentExemption
        Sample.mintDepsRentFails.MintAccountSize = .error "rpc: connection refused" ∧
      (App.PostHandler Sample.mintDepsRentFails Sample.mintContext).response.isNone = true ∧
      (App.PostHandler Sample.mintDepsRentFails Sample.mintContext).fatal
        = some "failed to get mint account rent, err: rpc: connection refused" := by
  refine ⟨by rfl, by rfl, by rfl⟩

/-- C6, amended.  `handlePostRequest`: when the body binds, the amount parses
and the blockhash RPC call of `prepareTransaction` fails, the response is 500
with the fixed body `{"error": "Error preparing transaction"}`, the same for
every error text, and it has no `transaction` field.  `PostHandler`: when
`mintNFT` is called and its rent or blockhash RPC call fails, the process ends
in a `log.Fatalf` and no response is written. -/
theorem C6_rpc_failure (d : Main.TransferDeps) (c : Context) (payload : Main.PostRequest)
    (a : F64) (e : String)
    (hb : d.ShouldBindJSON c.body = .ok payload)
    (hp : d.ParseFloat (c.Query "amount") = .ok a)
    (he : d.GetLatestBlockhash = .error e)
    (dM : App.MintDeps) (cM : Context) (md : App.MintNFTParams) (fp : Account)
    (hcall : (App.PostHandler dM cM).mintNFTCall = some (md, fp))
    (hfail : (∃ e, dM.GetMinimumBalanceForRentExemption dM.MintAccountSize = .error e) ∨
      (∃ e, dM.GetLatestBlockhash = .error e)) :
    ((Main.handlePostRequest d c).response
        = cJSON 500 (.obj [("error", .str "Error preparing transaction")]) ∧
      ((Main.handlePostRequest d c).response.body.bind (Json.field? "transaction")).isNone = true) ∧
    ((App.PostHandler dM cM).response.isNone = true ∧
      ∃ line, (App.PostHandler dM cM).fatal = some line) := by
  constructor
  · rw [Main.handlePostRequest_prepare_error d c payload a _ hb hp
      (Main.prepareTransaction_blockhash_error d _ _ a e he)]
    exact ⟨rfl, rfl⟩
  · rcases App.PostHandler_cases dM cM with ⟨e, hq⟩ | ⟨q, e, hq, hb⟩ |
      ⟨q, request, e, hq, hb, ha⟩ | ⟨q, request, account, line, hq, hb, ha, hm⟩ |
      ⟨q, request, account, res, hq, hb, ha, hm⟩
    · rw [App.PostHandler_query_error dM cM e hq] at hcall
      cases hcall
    · rw [App.PostHandler_bind_error dM cM q e hq hb] at hcall
      cases hcall
    · rw [App.PostHandler_account_error dM cM q request e hq hb ha] at hcall
      cases hcall
    · rw [App.PostHandler_fatal dM cM q request account line hq hb ha hm]
      exact ⟨rfl, line, rfl⟩
    · obtain ⟨line, hline⟩ := App.mintNFT_rpc_error dM q account hfail
      rw [hline] at hm
      cases hm

/-- C6, amended, at the sample requests with a failing RPC endpoint. -/
theorem C6_rpc_failure_witness :
    (Main.handlePostRequest Sample.transferDepsRpcFails (Sample.transferContext "2")).response.status
        = 500 ∧
      (App.PostHandler Sample.mintDepsRentFails Sample.mintContext).response.isNone = true :=
  ⟨congrArg Response.status
      (C6_rpc_failure Sample.transferDepsRpcFails (Sample.transferContext "2")
        { Account := Sample.accountString } (F64.finite false 1 1) "rpc: connection refused"
        (by rfl) (by rfl) (by rfl)
        Sample.mintDepsRentFails Sample.mintContext Sample.mintParams Sample.feePayer (by rfl)
        (Or.inl ⟨"rpc: connection refused", by rfl⟩)).1.1,
    (C6_rpc_failure Sample.transferDepsRpcFails (Sample.transferContext "2")
        { Account := Sample.accountString } (F64.finite false 1 1) "rpc: connection refused"
        (by rfl) (by rfl) (by rfl)
        Sample.mintDepsRentFails Sample.mintContext Sample.mintParams Sample.feePayer (by rfl)
        (Or.inl ⟨"rpc: connection refused", by rfl⟩)).2.1⟩

/-! ## C7: the body of a successful POST -/

/-- C7, as stated, fails for `PostHandler`: the body of its 200 response has
the one top-level field `fields`; `transaction` is not a top-level field. -/
theorem C7_PostHandler_body_nested :
    (App.PostHandler Sample.mintDeps Sample.mintContext).response.map Response.status
        = some 200 ∧
      ((App.PostHandler Sample.mintDeps Sample.mintContext).response.bind Response.body).map
        Json.keys = some ["fields"] ∧
      (((App.PostHandler Sample.mintDeps Sample.mintContext).response.bind Response.body).bind
        (Json.field? "transaction")).isNone = true ∧
      ["fields"] ≠ ["transaction", "message"] := by
  refine ⟨by rfl, by rfl, by rfl, by decide⟩

/-- C7, amended.  A 200 response of `handlePostRequest` has as body the object
with the top-level fields `transaction`, the base64 encoding of the serialized
transaction, and `message`, the string "Transaction sent successfully".  A 200
response of `PostHandler` has as body an object with the single top-level
field `fields`, whose value is the object with the fields `transaction`, the
base64 encoding of the serialized transaction, and `message`, the string
"Mint NFT " followed by the name.  In both, the serialized transaction is
`Serialize` of what `NewTransaction` returned for the argument the builder
made from this request: the bound account, the parsed amount or the bound
query, the fresh keys, the derived addresses, the rent and the blockhash. -/
theorem C7_success_body (d : Main.TransferDeps) (c : Context)
    (h200 : (Main.handlePostRequest d c).response.status = 200)
    (dM : App.MintDeps) (cM : Context) (resp : Response)
    (hresp : (App.PostHandler dM cM).response = some resp) (hM200 : resp.status = 200) :
    (∃ payload a bh tx ser,
      d.ShouldBindJSON c.body = .ok payload ∧
      d.ParseFloat (c.Query "amount") = .ok a ∧
      d.GetLatestBlockhash = .ok bh ∧
      d.NewTransaction
        (Main.transferTxParam (d.PublicKeyFromString payload.Account) d.NewAccount.PublicKey
          (Main.lamports d a) bh) = .ok tx ∧
      d.Serialize tx = .ok ser ∧
      (Main.handlePostRequest d c).response.body
        = some (.obj [("transaction", .str (d.EncodeToString ser)),
                      ("message", .str "Transaction sent successfully")])) ∧
    (∃ q request account ata meta edition rent bh tx ser,
      App.ShouldBindQuery cM = .ok q ∧
      dM.ShouldBindJSON cM.body = .ok request ∧
      dM.AccountFromBase58 request.Account = .ok account ∧
      dM.FindAssociatedTokenAddress account.PublicKey (dM.NewAccount 0).PublicKey = .ok ata ∧
      dM.GetTokenMetaPubkey (dM.NewAccount 0).PublicKey = .ok meta ∧
      dM.GetMasterEdition (dM.NewAccount 0).PublicKey = .ok edition ∧
      dM.GetMinimumBalanceForRentExemption dM.MintAccountSize = .ok rent ∧
      dM.GetLatestBlockhash = .ok bh ∧
      dM.NewTransaction
        (App.mintNFTTxParam dM q account (dM.NewAccount 0) (dM.NewAccount 1) ata meta edition
          rent bh) = .ok tx ∧
      dM.Serialize tx = .ok ser ∧
      resp.body
        = some (.obj [("fields",
            .obj [("transaction", .str (dM.EncodeToString ser)),
                  ("message", .str ("Mint NFT " ++ cM.Query "name"))])])) := by
  constructor
  · rcases Main.handlePostRequest_cases d c with ⟨e, hb⟩ | ⟨payload, e, hb, hp⟩ |
      ⟨payload, a, e, hb, hp, ht⟩ | ⟨payload, a, p, hb, hp, ht⟩
    · rw [Main.handlePostRequest_bind_error d c e hb] at h200
      exact absurd h200 (by decide)
    · rw [Main.handlePostRequest_parse_error d c payload e hb hp] at h200
      exact absurd h200 (by decide)
    · rw [Main.handlePostRequest_prepare_error d c payload a e hb hp ht] at h200
      exact absurd h200 status_500_ne_200
    · obtain ⟨bh, tx, ser, hbh, htx, hser, rfl⟩ := Main.prepareTransaction_ok_inv d _ _ a p ht
      rw [Main.handlePostRequest_ok d c payload a _ hb hp ht]
      exact ⟨payload, a, bh, tx, ser, hb, hp, hbh, htx, hser, rfl⟩
  · rcases App.PostHandler_cases dM cM with ⟨e, hq⟩ | ⟨q, e, hq, hb⟩ |
      ⟨q, request, e, hq, hb, ha⟩ | ⟨q, request, account, line, hq, hb, ha, hm⟩ |
      ⟨q, request, account, res, hq, hb, ha, hm⟩
    · rw [App.PostHandler_query_error dM cM e hq] at hresp
      cases hresp
      exact absurd hM200 (by decide)
    · rw [App.PostHandler_bind_error dM cM q e hq hb] at hresp
      cases hresp
      exact absurd hM200 (by decide)
    · rw [App.PostHandler_account_error dM cM q request e hq hb ha] at hresp
      cases hresp
      exact absurd hM200 (by decide)
    · rw [App.PostHandler_fatal dM cM q request account line hq hb ha hm] at hresp
      cases hresp
    · obtain ⟨ata, meta, edition, rent, bh, tx, ser, hata, hmeta, hed, hrent, hbh, htx, hser,
        rfl⟩ := App.mintNFT_ok_inv dM q account res hm
      rw [App.PostHandler_ok dM cM q request account _ hq hb ha hm] at hresp
      cases hresp
      have hname : q.Name = cM.Query "name" := by
        unfold App.ShouldBindQuery at hq
        simp only at hq
        split at hq
        · cases hq
        · split at hq
          · cases hq
          · split at hq
            · cases hq
            · cases hq
              rfl
      refine ⟨q, request, account, ata, meta, edition, rent, bh, tx, ser, hq, hb, ha, hata,
        hmeta, hed, hrent, hbh, htx, hser, ?_⟩
      rw [← hname]
      rfl

/-- C7, amended, at the sample requests. -/
theorem C7_success_body_witness :
    (Main.handlePostRequest Sample.transferDeps (Sample.transferContext "2")).response.status
        = 200 ∧
      (App.PostHandler Sample.mintDeps Sample.mintContext).response
        = some (cJSON 200 (.obj [("fields",
            .obj [("transaction", .str "CG"), ("message", .str "Mint NFT Art")])])) ∧
      (Main.handlePostRequest Sample.transferDeps (Sample.transferContext "2")).response.body.map
        Json.keys = some ["transaction", "message"] := by
  obtain ⟨payload, a, bh, tx, ser, -, -, -, -, -, hbody⟩ :=
    (C7_success_body Sample.transferDeps (Sample.transferContext "2") (by rfl)
      Sample.mintDeps Sample.mintContext
      (cJSON 200 (.obj [("fields",
        .obj [("transaction", .str "CG"), ("message", .str "Mint NFT Art")])]))
      (by rfl) (by rfl)).1
  refine ⟨by rfl, by rfl, ?_⟩
  rw [hbody]
  rfl

/-! ## C2: the lamport amount -/

/-- C2, as stated, fails: the amount `2^-30` (accepted as `amount=0x1p-30`)
is strictly positive, `amount * 1e9` is exactly `0.931322574615478515625`,
which rounds to 1, and the transfer instruction moves 0 lamports. -/
theorem C2_lamports_not_rounded :
    Sample.transferDeps.ParseFloat ((Sample.transferContext "0x1p-30").Query "amount")
        = .ok (F64.finite false 1 (-30)) ∧
      F64.pos (F64.finite false 1 (-30)) = true ∧
      (Main.handlePostRequest Sample.transferDeps
        (Sample.transferContext "0x1p-30")).response.status = 200 ∧
      (Main.handlePostRequest Sample.transferDeps (Sample.transferContext "0x1p-30")).prepareCall
        = some (Sample.sender, Sample.receiver, F64.finite false 1 (-30)) ∧
      Main.prepareTransaction Sample.transferDeps Sample.sender Sample.receiver
        (F64.finite false 1 (-30)) = .ok Sample.preparedTiny ∧
      Sample.preparedTiny.txParam.Message.Instructions
        = [.Transfer { From := Sample.sender, To := Sample.receiver, Amount := 0 }] ∧
      roundNearest (F64.toRat (F64.finite false 1 (-30)) * 10 ^ 9) = 1 ∧
      roundNearest (F64.toRat (F64.mul (F64.finite false 1 (-30)) F64.e9)) = 1 := by
  refine ⟨by rfl, by rfl, by rfl, by rfl, by rfl, by rfl, ?_, ?_⟩
  · unfold roundNearest F64.toRat
    rw [round_eq, Int.floor_eq_iff]
    norm_num
  · have hmul : F64.mul (F64.finite false 1 (-30)) F64.e9
        = F64.finite false (1000000000 * 2 ^ 23) (-53) := by decide
    rw [hmul]
    unfold roundNearest F64.toRat
    rw [round_eq, Int.floor_eq_iff]
    norm_num

/-- C2, amended: for a strictly positive amount whose float64 product
`amount * 1e9` is finite and below `2^64`, the Amount of the transfer
instruction built by `prepareTransaction` is that product with its fraction
discarded (rounded down, not to the nearest integer); the amount 2, however
the float64 is written as mantissa and exponent, gives 2_000_000_000
lamports. -/
theorem C2_lamports_truncated (d : Main.TransferDeps) (s r : PublicKey) (amount : F64)
    (p : Main.Prepared) (hp : Main.prepareTransaction d s r amount = .ok p)
    (hpos : F64.pos amount = true)
    (hfin : (F64.mul amount F64.e9).isFinite = true)
    (h64 : (F64.mul amount F64.e9).toRat < 2 ^ 64)
    (two : F64) (htwofin : two.isFinite = true) (htwo : two.toRat = 2)
    (p2 : Main.Prepared) (hp2 : Main.prepareTransaction d s r two = .ok p2) :
    p.txParam.Message.Instructions
        = [.Transfer { From := s, To := r, Amount := ⌊(F64.mul amount F64.e9).toRat⌋₊ }] ∧
      p2.txParam.Message.Instructions
        = [.Transfer { From := s, To := r, Amount := 2000000000 }] := by
  obtain ⟨bh, tx, ser, -, -, -, rfl⟩ := Main.prepareTransaction_ok_inv d s r amount p hp
  obtain ⟨bh2, tx2, ser2, -, -, -, rfl⟩ := Main.prepareTransaction_ok_inv d s r _ p2 hp2
  have h0 : 0 ≤ (F64.mul amount F64.e9).toRat := F64.mul_e9_nonneg amount hpos
  have hl : Main.lamports d amount = ⌊(F64.mul amount F64.e9).toRat⌋₊ := by
    unfold Main.lamports
    cases hx : F64.mul amount F64.e9 with
    | finite neg m e =>
      rw [hx] at h0 h64
      exact F64.toUint64_eq_floor d.uint64OutOfRange neg m e h0 h64
    | inf neg =>
      rw [hx] at hfin
      cases hfin
    | nan =>
      rw [hx] at hfin
      cases hfin
  have hl2 : Main.lamports d two = 2000000000 := Main.lamports_two d two htwofin htwo
  constructor
  · show [Instruction.Transfer { From := s, To := r, Amount := Main.lamports d amount }] = _
    rw [hl]
  · show [Instruction.Transfer
      { From := s, To := r, Amount := Main.lamports d two }] = _
    rw [hl2]

/-- C2, amended, at the sample amounts `2^-30` and `2`. -/
theorem C2_lamports_truncated_witness :
    Main.prepareTransaction Sample.transferDeps Sample.sender Sample.receiver
        (F64.finite false 1 (-30)) = .ok Sample.preparedTiny ∧
      Sample.preparedTiny.txParam.Message.Instructions
        = [.Transfer
            { From := Sample.sender, To := Sample.receiver,
              Amount := ⌊(F64.mul (F64.finite false 1 (-30)) F64.e9).toRat⌋₊ }] ∧
      Main.prepareTransaction Sample.transferDeps Sample.sender Sample.receiver
        (F64.finite false 1 1) = .ok Sample.preparedTwo ∧
      Sample.preparedTwo.txParam.Message.Instructions
        = [.Transfer { From := Sample.sender, To := Sample.receiver, Amount := 2000000000 }] := by
  have h := C2_lamports_truncated Sample.transferDeps Sample.sender Sample.receiver
    (F64.finite false 1 (-30)) Sample.preparedTiny (by rfl) (by rfl) (by rfl)
    (by
      have hmul : F64.mul (F64.finite false 1 (-30)) F64.e9
          = F64.finite false (1000000000 * 2 ^ 23) (-53) := by decide
      rw [hmul]
      unfold F64.toRat
      norm_num)
    (F64.finite false 1 1) (by rfl) (by unfold F64.toRat; norm_num)
    Sample.preparedTwo (by rfl)
  exact ⟨by rfl, h.1, by rfl, h.2⟩

end SolanaActions
